import Mathlib

/-!
# Verification of the Alvys export/insert pipeline

Shallow embedding of the Python sources of the `alvys-api` repository:
`alvys_export.py` (pagination), `alvys_insert.py` (per-entity sanitizers and
chunked batch insert), `inserts/trips_insert.py` (trip/stop flatteners and
bulk insert), `inserts/active_entities_insert.py` (chunk size constant),
`utils/dates.py` (week-range arithmetic) and `main.py` (CLI dispatch).

JSON values as loaded by Python's `json.load` are modelled by `JVal`
(JSON null becomes Python `None`, modelled as `JVal.null`; integral JSON
numbers become Python `int`, others `float`).  Python `float` is modelled by
`Rat` (IEEE specials such as NaN/inf are outside the model; none of the
verified properties concern them).  Operations that can raise are modelled
in `Except PyErr`; total Python expressions are total Lean functions.
Python `datetime` objects appearing inside sanitized rows are modelled by
the `JVal.dt` constructor (wall-clock microseconds plus an optional UTC
offset in minutes).
-/

namespace Alvys

/-- A Python runtime error class (only the classes that the modelled code can
actually raise are distinguished). -/
inductive PyErr where
  | attributeError
  | typeError
  | valueError
  deriving DecidableEq, Repr

/-- A Python value as produced by `json.load`, extended with `dt` for
`datetime` objects produced during sanitization.  `obj` keeps the key order
of the JSON document, keys are unique. -/
inductive JVal where
  | null
  | bool (b : Bool)
  | int (n : Int)
  | float (q : Rat)
  | str (s : String)
  | arr (xs : List JVal)
  | obj (kvs : List (String × JVal))
  | dt (wallUsec : Int) (offsetMin : Option Int)

/-- A Python dict with string keys (a `RawRecord` or a sanitized row). -/
abbrev JObj := List (String × JVal)

/-- Membership lookup in a Python dict: `d[k]` when present. -/
def jLookup (d : JObj) (k : String) : Option JVal :=
  (d.find? (fun kv => kv.1 == k)).map (·.2)

/-- `d.get(k)`: `None` when the key is absent. -/
def dGet (d : JObj) (k : String) : JVal :=
  (jLookup d k).getD .null

/-- `d.get(k, dflt)`: the default only applies when the key is absent; a key
present with value `None` yields `None`, not the default. -/
def dGetD (d : JObj) (k : String) (dflt : JVal) : JVal :=
  (jLookup d k).getD dflt

/-- Python truthiness of a value. -/
def pyTruthy : JVal → Bool
  | .null => false
  | .bool b => b
  | .int n => n != 0
  | .float q => q != 0
  | .str s => s != ""
  | .arr xs => !xs.isEmpty
  | .obj kvs => !kvs.isEmpty
  | .dt _ _ => true

/-- Python `a or b`: `a` when truthy, else `b`. -/
def pyOr (a b : JVal) : JVal := if pyTruthy a then a else b

/-- `v.get(k)` for arbitrary `v`: an `AttributeError` when `v` is not a dict
(this is how the sanitizers blow up on a record whose nested field holds
`null` or a scalar instead of an object). -/
def pyGetAttrGet (v : JVal) (k : String) : Except PyErr JVal :=
  match v with
  | .obj kvs => .ok (dGet kvs k)
  | _ => .error .attributeError

/-- `v.get(k, dflt)` for arbitrary `v`. -/
def pyGetAttrGetD (v : JVal) (k : String) (dflt : JVal) : Except PyErr JVal :=
  match v with
  | .obj kvs => .ok (dGetD kvs k dflt)
  | _ => .error .attributeError

/-- Is the value a dict object? -/
def isObjD : JVal → Bool
  | .obj _ => true
  | _ => false

/-- `Except` result is a success. -/
def isOkE : Except ε α → Bool
  | .ok _ => true
  | .error _ => false

/-- Python `str.strip()` on the character list (drop leading and trailing
whitespace). -/
def stripChars (cs : List Char) : List Char :=
  ((cs.dropWhile Char.isWhitespace).reverse.dropWhile Char.isWhitespace).reverse

/-- Python `str.strip()`. -/
def pyStrip (s : String) : String := ⟨stripChars s.data⟩

/-- Decimal digits of a `Nat`, most significant first. -/
def natDigits (n : Nat) : List Char := (toString n).data

/-- Value of a list of decimal digit characters. -/
def digitsVal (cs : List Char) : Nat :=
  cs.foldl (fun acc c => acc * 10 + (c.toNat - '0'.toNat)) 0

/-- All characters are decimal digits. -/
def allDigits (cs : List Char) : Bool := cs.all (fun c => c.isDigit)

/-- Python `int(s)` on a string: optional surrounding whitespace, optional
sign, then at least one digit (numeric underscores are not modelled). -/
def parsePyIntStr (s : String) : Option Int :=
  let cs := stripChars s.data
  match cs with
  | '+' :: rest => if rest ≠ [] ∧ allDigits rest then some (digitsVal rest) else none
  | '-' :: rest => if rest ≠ [] ∧ allDigits rest then some (-(digitsVal rest : Int)) else none
  | rest => if rest ≠ [] ∧ allDigits rest then some (digitsVal rest) else none

/-- Truncation of a rational toward zero, as Python `int(float)`. -/
def ratTruncZ (q : Rat) : Int := Int.tdiv q.num (q.den : Int)

/-- Python `int(v)`: booleans and ints pass through, floats truncate toward
zero, strings parse strictly, everything else raises. -/
def pyInt : JVal → Except PyErr Int
  | .bool b => .ok (if b then 1 else 0)
  | .int n => .ok n
  | .float q => .ok (ratTruncZ q)
  | .str s =>
    match parsePyIntStr s with
    | some n => .ok n
    | none => .error .valueError
  | _ => .error .typeError

/-- Unsigned decimal mantissa with optional fractional part: returns the
value as a rational, or `none` if no digit is present or the shape is bad. -/
def parseMantissa (cs : List Char) : Option Rat :=
  let intPart := cs.takeWhile Char.isDigit
  let rest := cs.dropWhile Char.isDigit
  match rest with
  | [] => if intPart ≠ [] then some ((digitsVal intPart : Int) : Rat) else none
  | '.' :: fracCs =>
    if allDigits fracCs ∧ (intPart ≠ [] ∨ fracCs ≠ []) then
      some (((digitsVal intPart : Int) : Rat) +
        ((digitsVal fracCs : Int) : Rat) / ((10 ^ fracCs.length : Nat) : Rat))
    else none
  | _ => none

/-- Python `float(s)` on a string: optional whitespace and sign, decimal
mantissa, optional exponent (IEEE specials `nan`/`inf` are outside the
model). -/
def parsePyFloatStr (s : String) : Option Rat :=
  let cs := stripChars s.data
  let (sign, cs) :=
    match cs with
    | '+' :: rest => ((1 : Rat), rest)
    | '-' :: rest => ((-1 : Rat), rest)
    | rest => ((1 : Rat), rest)
  let mantCs := cs.takeWhile (fun c => c.isDigit ∨ c = '.')
  let expCs := cs.dropWhile (fun c => c.isDigit ∨ c = '.')
  match parseMantissa mantCs with
  | none => none
  | some m =>
    match expCs with
    | [] => some (sign * m)
    | 'e' :: ecs | 'E' :: ecs =>
      match ecs with
      | '+' :: ds => if ds ≠ [] ∧ allDigits ds then some (sign * m * 10 ^ (digitsVal ds)) else none
      | '-' :: ds => if ds ≠ [] ∧ allDigits ds then some (sign * m / 10 ^ (digitsVal ds)) else none
      | ds => if ds ≠ [] ∧ allDigits ds then some (sign * m * 10 ^ (digitsVal ds)) else none
    | _ => none

/-- Decimal rendering of a rational whose denominator divides a power of ten
(the only floats the pipeline produces); falls back to fraction notation. -/
def floatRepr (q : Rat) : String :=
  if q.den = 1 then toString q.num ++ ".0"
  else
    match (List.range 40).find? (fun k => (10 ^ k) % q.den = 0) with
    | some k =>
      let scaled := q.num * ((10 ^ k / q.den : Nat) : Int)
      let sign := if scaled < 0 then "-" else ""
      let a := scaled.natAbs
      let ip := a / 10 ^ k
      let fp := a % 10 ^ k
      let fpStr := toString fp
      let pad := List.replicate (k - fpStr.length) '0'
      sign ++ toString ip ++ "." ++ ⟨pad⟩ ++ fpStr
    | none => toString q.num ++ "/" ++ toString q.den

mutual
/-- Python `repr` of a value (string escaping inside quotes not modelled). -/
def reprJVal : JVal → String
  | .null => "None"
  | .bool b => if b then "True" else "False"
  | .int n => toString n
  | .float q => floatRepr q
  | .str s => "'" ++ s ++ "'"
  | .arr xs => "[" ++ String.intercalate ", " (reprList xs) ++ "]"
  | .obj kvs => "\x7b" ++ String.intercalate ", " (reprPairs kvs) ++ "\x7d"
  | .dt w o => "datetime(" ++ toString w ++ ", " ++ toString (o.getD 0) ++ ")"

def reprList : List JVal → List String
  | [] => []
  | v :: vs => reprJVal v :: reprList vs

def reprPairs : List (String × JVal) → List String
  | [] => []
  | (k, v) :: kvs => ("'" ++ k ++ "': " ++ reprJVal v) :: reprPairs kvs
end

/-- Python `str(v)`: strings pass through unquoted, other values use their
`repr`. -/
def pyStr : JVal → String
  | .str s => s
  | v => reprJVal v

/-! ## Calendar arithmetic and `datetime.fromisoformat`

`utils/dates.py` and `safe_datetime` both rely on Python `datetime`.  A
tz-aware UTC datetime is modelled as microseconds since 1970-01-01 00:00 UTC;
a parsed `fromisoformat` result keeps its wall-clock microseconds together
with its optional offset (minutes east of UTC). -/

/-- Microseconds per day / per millisecond. -/
def usecPerDay : Int := 86400000000

def usecPerMs : Int := 1000

/-- Leap year in the proleptic Gregorian calendar. -/
def isLeap (y : Nat) : Bool := y % 4 = 0 ∧ (y % 100 ≠ 0 ∨ y % 400 = 0)

/-- Days in a month. -/
def daysInMonth (y m : Nat) : Nat :=
  if m = 2 then (if isLeap y then 29 else 28)
  else if m = 4 ∨ m = 6 ∨ m = 9 ∨ m = 11 then 30
  else 31

/-- Days from 1970-01-01 to year `y`, month `m`, day `d` (valid Gregorian
date, `y ≥ 1`); the standard era-based civil-calendar formula. -/
def daysFromCivil (y m d : Nat) : Int :=
  let y' := y - (if m ≤ 2 then 1 else 0)
  let era := y' / 400
  let yoe := y' % 400
  let mp := (m + 9) % 12
  let doy := (153 * mp + 2) / 5 + d - 1
  let doe := yoe * 365 + yoe / 4 - yoe / 100 + doy
  (era * 146097 + doe : Nat) - (719468 : Int)

/-- Read exactly `n` decimal digits from the front of `cs`; returns the value
and the remainder. -/
def readDigits (n : Nat) (cs : List Char) : Option (Nat × List Char) :=
  let ds := cs.take n
  if ds.length = n ∧ allDigits ds then some (digitsVal ds, cs.drop n) else none

/-- Time-of-day and offset portion of `fromisoformat`:
`HH[:MM[:SS[.fff[fff]]]][±HH:MM[:SS]]`.  Returns wall-clock microseconds
within the day and the optional offset in minutes. -/
def parseIsoTime (cs : List Char) : Option (Nat × Option Int) :=
  match readDigits 2 cs with
  | none => none
  | some (hh, rest) =>
    if hh ≥ 24 then none else
    let step : Nat → List Char → Option (Nat × List Char) := fun bound l =>
      match l with
      | ':' :: l' =>
        match readDigits 2 l' with
        | some (v, l'') => if v ≥ bound then none else some (v, l'')
        | none => none
      | _ => none
    let (mi, rest) := (step 60 rest).getD (0, if rest.head? = some ':' then ['!'] else rest)
    let (ss, rest) := (step 60 rest).getD (0, if rest.head? = some ':' then ['!'] else rest)
    let (us, rest) :=
      match rest with
      | '.' :: l' =>
        let ds := l'.takeWhile Char.isDigit
        let l'' := l'.dropWhile Char.isDigit
        if ds.length = 3 then ((digitsVal ds) * 1000, l'')
        else if ds.length = 6 then (digitsVal ds, l'')
        else (0, ['!'])
      | _ => (0, rest)
    let wall := hh * 3600000000 + mi * 60000000 + ss * 1000000 + us
    match rest with
    | [] => some (wall, none)
    | sgn :: l' =>
      if sgn = '+' ∨ sgn = '-' then
        match readDigits 2 l' with
        | some (oh, l'') =>
          if oh ≥ 24 then none else
          match l'' with
          | ':' :: l3 =>
            match readDigits 2 l3 with
            | some (om, l4) =>
              if om ≥ 60 then none else
              let l5 := match l4 with
                | ':' :: l4' =>
                  match readDigits 2 l4' with
                  | some (os, l6) => if os ≥ 60 then ['!'] else l6
                  | none => ['!']
                | _ => l4
              if l5 = [] then
                let mins : Int := oh * 60 + om
                some (wall, some (if sgn = '-' then -mins else mins))
              else none
            | none => none
          | _ => none
        | none => none
      else none

/-- `datetime.fromisoformat` (the strict pre-3.11 grammar emitted by
`isoformat`): `YYYY-MM-DD[*HH[:MM[:SS[.fff[fff]]]][±HH:MM[:SS]]]` with a
validated Gregorian date.  Returns wall-clock microseconds since the epoch
and the optional offset in minutes. -/
def fromisoformat (s : String) : Option (Int × Option Int) :=
  match s.data with
  | y1 :: y2 :: y3 :: y4 :: '-' :: m1 :: m2 :: '-' :: d1 :: d2 :: rest =>
    if allDigits [y1, y2, y3, y4] ∧ allDigits [m1, m2] ∧ allDigits [d1, d2] then
      let y := digitsVal [y1, y2, y3, y4]
      let m := digitsVal [m1, m2]
      let d := digitsVal [d1, d2]
      if 1 ≤ y ∧ 1 ≤ m ∧ m ≤ 12 ∧ 1 ≤ d ∧ d ≤ daysInMonth y m then
        let dayUs : Int := daysFromCivil y m d * usecPerDay
        match rest with
        | [] => some (dayUs, none)
        | _ :: timeCs =>
          match parseIsoTime timeCs with
          | some (wall, off) => some (dayUs + wall, off)
          | none => none
      else none
    else none
  | _ => none

/-- `safe_datetime` from `alvys_insert.py`:

    try:
        return datetime.fromisoformat(val.replace("Z", "+00:00")) if val else None
    except Exception:
        return None

Falsy values short-circuit to `None`; non-string truthy values raise an
`AttributeError` at `.replace` which the bare `except` turns into `None`;
strings that fail to parse likewise become `None`. -/
def safe_datetime (v : JVal) : JVal :=
  if pyTruthy v then
    match v with
    | .str s =>
      match fromisoformat (s.replace "Z" "+00:00") with
      | some (w, off) => .dt w off
      | none => .null
    | _ => .null
  else .null

/-! ## Per-entity sanitizers (`alvys_insert.py`) -/

/-- `sanitize_driver`: the nested `.get` chains on `Address`/`Fleet` and the
`int(...)` coercion of `IsActive` can raise; everything else is total. -/
def sanitize_driver (d : JObj) : Except PyErr JObj := do
  let zip ← pyGetAttrGet (dGetD d "Address" (.obj [])) "ZipCode"
  let fleetId ← pyGetAttrGet (dGetD d "Fleet" (.obj [])) "Id"
  let fleetName ← pyGetAttrGet (dGetD d "Fleet" (.obj [])) "Name"
  let isActive ← pyInt (dGetD d "IsActive" (.bool false))
  .ok [("ID", dGet d "Id"),
       ("EMPLOYEE_ID", dGet d "EmployeeId"),
       ("DRIVER_TYPE", dGet d "Type"),
       ("SUBSIDIARY_ID", dGet d "SubsidiaryId"),
       ("ZIP_CODE", zip),
       ("FLEET_ID", fleetId),
       ("FLEET_NAME", fleetName),
       ("CREATED_DTTM", safe_datetime (dGet d "CreatedAt")),
       ("IS_ACTIVE", .int isActive),
       ("HIRED_DTTM", safe_datetime (dGet d "HiredAt")),
       ("FILE_ID", dGet d "FILE_ID")]

/-- `sanitize_truck`. -/
def sanitize_truck (t : JObj) : Except PyErr JObj := do
  let fleetId ← pyGetAttrGet (dGetD t "Fleet" (.obj [])) "Id"
  let fleetName ← pyGetAttrGet (dGetD t "Fleet" (.obj [])) "Name"
  .ok [("ID", dGet t "Id"),
       ("TRUCK_NUM", dGet t "TruckNum"),
       ("VIN_NUMBER", dGet t "VinNumber"),
       ("YEAR", match dGet t "Year" with
                | .null => .null
                | v => .str (pyStr v)),
       ("MAKE", dGet t "Make"),
       ("MODEL", dGet t "Model"),
       ("LICENSE_STATE", dGet t "LicenseState"),
       ("TRUCK_TYPE", dGet t "TruckType"),
       ("SUBSIDIARY_ID", dGet t "SubsidiaryId"),
       ("FLEET_ID", fleetId),
       ("FLEET_NAME", fleetName),
       ("CREATED_DTTM", safe_datetime (dGet t "CreatedAt")),
       ("FILE_ID", dGet t "FILE_ID")]

/-- `sanitize_trailer`: no nested access, genuinely total (wrapped in
`Except` only for uniformity). -/
def sanitize_trailer (t : JObj) : Except PyErr JObj :=
  .ok [("ID", dGet t "Id"),
       ("TRAILER_NUM", dGet t "TrailerNum"),
       ("TRAILER_TYPE", dGet t "TrailerType"),
       ("TRAILER_STATUS", dGet t "Status"),
       ("CREATED_DTTM", safe_datetime (dGet t "CreatedAt")),
       ("FILE_ID", dGet t "FILE_ID")]

/-- `", ".join(items)`: every element must be a `str`, otherwise
`TypeError`. -/
def pyJoin (sep : String) (items : List JVal) : Except PyErr String := do
  let strs ← items.mapM (fun v =>
    match v with
    | JVal.str s => Except.ok s
    | _ => Except.error PyErr.typeError)
  .ok (String.intercalate sep strs)

/-- `sanitize_customer`: the billing-address join requires each of the four
components to be a string (present-and-`null` raises `TypeError` inside
`join`; a non-dict `BillingAddress` raises `AttributeError`). -/
def sanitize_customer (c : JObj) : Except PyErr JObj := do
  let street ← pyGetAttrGetD (dGetD c "BillingAddress" (.obj [])) "Street" (.str "")
  let city ← pyGetAttrGetD (dGetD c "BillingAddress" (.obj [])) "City" (.str "")
  let state ← pyGetAttrGetD (dGetD c "BillingAddress" (.obj [])) "State" (.str "")
  let zip ← pyGetAttrGetD (dGetD c "BillingAddress" (.obj [])) "ZipCode" (.str "")
  let billing ← pyJoin ", " [street, city, state, zip]
  let invName ← pyGetAttrGet (dGetD c "InvoicingInformation" (.obj [])) "InvoicingName"
  let invAlias ← pyGetAttrGet (dGetD c "InvoicingInformation" (.obj [])) "InvoicingNameAlias"
  .ok [("ID", dGet c "Id"),
       ("CUSTOMER_NAME", dGet c "Name"),
       ("COMPANY_NUMBER", dGet c "CompanyNumber"),
       ("CUSTOMER_TYPE", dGet c "Type"),
       ("CUSTOMER_STATUS", dGet c "Status"),
       ("BILLING_ADDRESS", .str billing),
       ("CREATED_DTTM", safe_datetime (dGet c "DateCreated")),
       ("INVOICING_NAME", invName),
       ("INVOICING_ALIAS", invAlias),
       ("FILE_ID", dGet c "FILE_ID")]

/-- `sanitize_carrier`: `address = c.get("Address", {})` then three `.get`
accesses on it. -/
def sanitize_carrier (c : JObj) : Except PyErr JObj := do
  let address := dGetD c "Address" (.obj [])
  let city ← pyGetAttrGet address "City"
  let state ← pyGetAttrGet address "State"
  let zip ← pyGetAttrGet address "ZipCode"
  .ok [("ID", dGet c "Id"),
       ("CARRIER_NAME", dGet c "Name"),
       ("EXTERNAL_NAME", dGet c "ExternalName"),
       ("CITY", city),
       ("STATE", state),
       ("ZIP", zip),
       ("MC_NUM", dGet c "McNum"),
       ("US_DOT_NUM", dGet c "UsDotNum"),
       ("CARRIER_TYPE", dGet c "Type"),
       ("CARRIER_STATUS", dGet c "Status"),
       ("CARRIER_SOURCE", dGet c "Source"),
       ("UPDATED_DTTM", safe_datetime (dGet c "UpdatedAt")),
       ("CREATED_DTTM", safe_datetime (dGet c "CreatedAt")),
       ("FILE_ID", dGet c "FILE_ID")]

/-- Fixed column sets of the five entity sanitizers. -/
def DRIVER_COLS : List String :=
  ["ID", "EMPLOYEE_ID", "DRIVER_TYPE", "SUBSIDIARY_ID", "ZIP_CODE", "FLEET_ID",
   "FLEET_NAME", "CREATED_DTTM", "IS_ACTIVE", "HIRED_DTTM", "FILE_ID"]

def TRUCK_COLS : List String :=
  ["ID", "TRUCK_NUM", "VIN_NUMBER", "YEAR", "MAKE", "MODEL", "LICENSE_STATE",
   "TRUCK_TYPE", "SUBSIDIARY_ID", "FLEET_ID", "FLEET_NAME", "CREATED_DTTM", "FILE_ID"]

def TRAILER_COLS : List String :=
  ["ID", "TRAILER_NUM", "TRAILER_TYPE", "TRAILER_STATUS", "CREATED_DTTM", "FILE_ID"]

def CUSTOMER_COLS : List String :=
  ["ID", "CUSTOMER_NAME", "COMPANY_NUMBER", "CUSTOMER_TYPE", "CUSTOMER_STATUS",
   "BILLING_ADDRESS", "CREATED_DTTM", "INVOICING_NAME", "INVOICING_ALIAS", "FILE_ID"]

def CARRIER_COLS : List String :=
  ["ID", "CARRIER_NAME", "EXTERNAL_NAME", "CITY", "STATE", "ZIP", "MC_NUM",
   "US_DOT_NUM", "CARRIER_TYPE", "CARRIER_STATUS", "CARRIER_SOURCE",
   "UPDATED_DTTM", "CREATED_DTTM", "FILE_ID"]

/-! ## Trip / stop flatteners (`inserts/trips_insert.py`) -/

/-- The null-safe helper `g(d, *keys)`: checks `isinstance(d, dict)` before
every step, so any missing intermediate object yields `None`. -/
def g : JVal → List String → JVal
  | v, [] => v
  | .obj kvs, k :: ks => g (dGet kvs k) ks
  | _, _ :: _ => .null

/-- The helper `_s(val, max_len)`: `None` for `None`, else `str(val).strip()`
truncated to `max_len` when the bound is truthy; empty-after-strip becomes
`None`. -/
def pyS (v : JVal) (maxLen : Option Nat) : Option String :=
  match v with
  | .null => none
  | _ =>
    let s := pyStrip (pyStr v)
    if s = "" then none
    else
      match maxLen with
      | some m => if m = 0 then some s else some (s.take m)
      | none => some s

/-- Embed an optional string back into a row value. -/
def oJ : Option String → JVal
  | some s => .str s
  | none => .null

/-- The helper `_f(val)`: `None` and `""` (and anything `float()` rejects)
become `None`, numbers and numeric strings become floats. -/
def pyF (v : JVal) : JVal :=
  match v with
  | .null => .null
  | .str s =>
    if s = "" then .null
    else
      match parsePyFloatStr s with
      | some q => .float q
      | none => .null
  | .int n => .float (n : Rat)
  | .float q => .float q
  | .bool b => .float (if b then 1 else 0)
  | _ => .null

/-- `flatten_trip(trip, file_id)`: a 43-element positional row matching
`TRIP_COLS`.  The only fallible step is
`int(trip.get("CarrierPayOnHold") or False)`. -/
def flatten_trip (trip : JObj) (fileId : Option String) (runTs : JVal) :
    Except PyErr (List JVal) := do
  let cpoh ← pyInt (pyOr (dGet trip "CarrierPayOnHold") (.bool false))
  .ok [oJ (pyS (dGet trip "Id") (some 100)),
       oJ (pyS (dGet trip "TripNumber") (some 100)),
       oJ (pyS (dGet trip "Status") (some 50)),
       oJ (pyS (dGet trip "LoadNumber") (some 100)),
       oJ (pyS (dGet trip "TenderAs") (some 50)),
       pyF (g (.obj trip) ["TotalMileage", "Distance", "Value"]),
       oJ (pyS (g (.obj trip) ["TotalMileage", "Source"]) (some 50)),
       oJ (pyS (g (.obj trip) ["TotalMileage", "ProfileName"]) (some 100)),
       pyF (g (.obj trip) ["EmptyMileage", "Distance", "Value"]),
       pyF (g (.obj trip) ["LoadedMileage", "Distance", "Value"]),
       dGet trip "PickupDate",
       dGet trip "DeliveryDate",
       dGet trip "PickedUpAt",
       dGet trip "DeliveredAt",
       dGet trip "CarrierAssignedAt",
       dGet trip "ReleasedAt",
       pyF (g (.obj trip) ["TripValue", "Amount"]),
       oJ (pyS (g (.obj trip) ["Truck", "Id"]) (some 100)),
       oJ (pyS (g (.obj trip) ["Truck", "Fleet", "Id"]) (some 100)),
       oJ (pyS (g (.obj trip) ["Truck", "Fleet", "Name"]) (some 100)),
       oJ (pyS (g (.obj trip) ["Trailer", "Id"]) (some 100)),
       oJ (pyS (g (.obj trip) ["Trailer", "EquipmentType"]) (some 50)),
       oJ (pyS (g (.obj trip) ["Driver1", "Id"]) (some 100)),
       oJ (pyS (g (.obj trip) ["Driver1", "ContractorType"]) (some 50)),
       oJ (pyS (g (.obj trip) ["Driver1", "Fleet", "Id"]) (some 100)),
       oJ (pyS (g (.obj trip) ["Driver2", "Id"]) (some 100)),
       oJ (pyS (g (.obj trip) ["Driver2", "ContractorType"]) (some 50)),
       oJ (pyS (g (.obj trip) ["Driver2", "Fleet", "Id"]) (some 100)),
       oJ (pyS (g (.obj trip) ["OwnerOperator", "Id"]) (some 100)),
       oJ (pyS (dGet trip "ReleasedBy") (some 100)),
       oJ (pyS (dGet trip "DispatchedBy") (some 100)),
       oJ (pyS (dGet trip "DispatcherId") (some 100)),
       .int cpoh,
       oJ (pyS (g (.obj trip) ["Carrier", "Id"]) (some 100)),
       oJ (pyS (g (.obj trip) ["Carrier", "CarrierInvoiceNumber"]) (some 100)),
       pyF (g (.obj trip) ["Carrier", "Rate", "Amount"]),
       pyF (g (.obj trip) ["Carrier", "Linehaul", "Amount"]),
       pyF (g (.obj trip) ["Carrier", "Fuel", "Amount"]),
       pyF (g (.obj trip) ["Carrier", "Accessorials", "Amount"]),
       pyF (g (.obj trip) ["Carrier", "TotalPayable", "Amount"]),
       dGet trip "UpdatedAt",
       oJ fileId,
       runTs]

def TRIP_COLS : List String :=
  ["ID", "TRIP_NUMBER", "TRIP_STATUS", "LOAD_NUMBER", "TENDER_AS",
   "TOTAL_MILEAGE", "MILEAGE_SOURCE", "MILEAGE_PROFILE_NAME", "EMPTY_MILEAGE",
   "LOADED_MILEAGE", "PICKUP_DTTM", "DELIVERY_DTTM", "PICKED_UP_DTTM",
   "DELIVERED_DTTM", "CARRIER_ASSIGNED_DTTM", "RELEASED_DTTM", "TRIP_VALUE",
   "TRUCK_ID", "TRUCK_FLEET_ID", "TRUCK_FLEET_NAME", "TRAILER_ID",
   "TRAILER_TYPE", "DRIVER1_ID", "DRIVER1_TYPE", "DRIVER1_FLEET_ID",
   "DRIVER2_ID", "DRIVER2_TYPE", "DRIVER2_FLEET_ID", "OWNER_OPERATOR_ID",
   "RELEASED_BY", "DISPATCHED_BY", "DISPATCHER_ID", "IS_CARRIER_PAY_ON_HOLD",
   "CARRIER_ID", "CARRIER_INVOICE", "CARRIER_RATE", "CARRIER_LINEHAUL",
   "CARRIER_FUEL", "CARRIER_ACCESSORIALS", "CARRIER_TOTAL_PAYABLE",
   "UPDATED_DTTM", "FILE_ID", "INSERTED_DTTM"]

def STOP_COLS : List String :=
  ["ID", "TRIP_ID", "TRIP_NUMBER", "STOP_SEQUENCE", "IS_APPOINTMENT_REQUESTED",
   "IS_APPOINTMENT_CONFIRMED", "EARLIEST_APPOINTMENT_DTTM",
   "LATEST_APPOINTMENT_DTTM", "STREET_ADDRESS", "CITY", "STATE_PROVINCE",
   "POSTAL_CD", "LATITUDE", "LONGITUDE", "STOP_STATUS", "STOP_TYPE",
   "STOP_SCHEDULE_TYPE", "LOADING_TYPE", "ARRIVED_DTTM", "DEPARTED_DTTM",
   "FILE_ID", "INSERTED_DTTM"]

/-- Interpret a value as a dict (any `.get` call on it). -/
def asDict : JVal → Except PyErr JObj
  | .obj kvs => .ok kvs
  | _ => .error .attributeError

/-- The f-string `f"{trip_id}_{seq}"`, with `None` formatting as `"None"`. -/
def synthStopId (tid : Option String) (seq : Nat) : String :=
  (match tid with | some s => s | none => "None") ++ "_" ++ toString seq

/-- One iteration of the stop loop in `flatten_stops` (the stop must itself
be a dict, its `Address`/`Coordinates`, when present, must be dicts, and the
two appointment flags must be `int()`-coercible). -/
def flattenStop (tid tnum fileId : Option String) (runTs : JVal) (seq : Nat)
    (stopV : JVal) : Except PyErr (List JVal) := do
  let stop ← asDict stopV
  let addressV := dGetD stop "Address" (.obj [])
  let coordsV := dGetD stop "Coordinates" (.obj [])
  let earliest := pyOr (dGet stop "AppointmentDate") (g (.obj stop) ["StopWindow", "Begin"])
  let latest := if pyTruthy (dGet stop "StopWindow")
                then g (.obj stop) ["StopWindow", "End"] else .null
  let apptReq ← pyInt (pyOr (dGet stop "AppointmentRequested") (.bool false))
  let apptCnf ← pyInt (pyOr (dGet stop "AppointmentConfirmed") (.bool false))
  let street ← pyGetAttrGet addressV "Street"
  let city ← pyGetAttrGet addressV "City"
  let state ← pyGetAttrGet addressV "State"
  let zip ← pyGetAttrGet addressV "ZipCode"
  let lat ← pyGetAttrGet coordsV "Latitude"
  let lon ← pyGetAttrGet coordsV "Longitude"
  .ok [oJ (pyS (pyOr (dGet stop "Id") (.str (synthStopId tid seq))) (some 100)),
       oJ tid,
       oJ tnum,
       .int seq,
       .int apptReq,
       .int apptCnf,
       earliest,
       latest,
       oJ (pyS street (some 200)),
       oJ (pyS city (some 100)),
       oJ (pyS state (some 50)),
       oJ (pyS zip (some 20)),
       pyF lat,
       pyF lon,
       oJ (pyS (dGet stop "Status") (some 50)),
       oJ (pyS (dGet stop "StopType") (some 50)),
       oJ (pyS (dGet stop "ScheduleType") (some 50)),
       oJ (pyS (dGet stop "LoadingType") (some 50)),
       dGet stop "ArrivedAt",
       dGet stop "DepartedAt",
       oJ fileId,
       runTs]

/-- Python iteration over the value of `trip.get("Stops", [])` (iterating a
string yields its one-character strings, a dict its keys; numbers and `None`
raise `TypeError`). -/
def pyIterate : JVal → Except PyErr (List JVal)
  | .arr xs => .ok xs
  | .str s => .ok (s.data.map (fun c => JVal.str ⟨[c]⟩))
  | .obj kvs => .ok (kvs.map (fun kv => JVal.str kv.1))
  | _ => .error .typeError

/-- The `enumerate(..., 1)` loop body of `flatten_stops`. -/
def flattenStopsGo (tid tnum fileId : Option String) (runTs : JVal) :
    Nat → List JVal → Except PyErr (List (List JVal))
  | _, [] => .ok []
  | seq, s :: rest => do
    let row ← flattenStop tid tnum fileId runTs seq s
    let rows ← flattenStopsGo tid tnum fileId runTs (seq + 1) rest
    .ok (row :: rows)

/-- `flatten_stops(trip, file_id)`: one row per element of `trip["Stops"]`,
sequence numbers starting at 1. -/
def flatten_stops (trip : JObj) (fileId : Option String) (runTs : JVal) :
    Except PyErr (List (List JVal)) := do
  let tid := pyS (dGet trip "Id") (some 100)
  let tnum := pyS (dGet trip "TripNumber") (some 100)
  let elems ← pyIterate (dGetD trip "Stops" (.arr []))
  flattenStopsGo tid tnum fileId runTs 1 elems

/-! ## Pagination (`alvys_export.py`, `fetch_paginated_data`)

The server is abstracted as the sequence of batches it returns for pages
0, 1, 2, …; the `while True` loop is given explicit fuel (the source loop is
unbounded when the server never sends a short page — an acknowledged design
limitation), and the loop also counts the search requests it issues. -/

def PAGE_SIZE : Nat := 200

/-- Python truthiness of the `max_items` argument: `None` and `0` are both
falsy, so `max_items=0` disables the cap instead of enforcing it. -/
def capTruthy : Option Nat → Bool
  | none => false
  | some n => n != 0

/-- The `while True` body: request page `page`, stop on an empty batch, a
short batch, or (with a truthy cap) once the accumulated count reaches the
cap.  Returns the accumulated items and the number of requests issued, or
`none` if the fuel runs out. -/
def fetchLoop (pages : Nat → List α) (maxItems : Option Nat) :
    Nat → Nat → List α → Nat → Option (List α × Nat)
  | 0, _, _, _ => none
  | fuel + 1, page, acc, reqs =>
    let batch := pages page
    if batch.isEmpty then some (acc, reqs + 1)
    else
      let acc' := acc ++ batch
      if batch.length < PAGE_SIZE ∨
          (capTruthy maxItems = true ∧ (maxItems.getD 0) ≤ acc'.length) then
        some (acc', reqs + 1)
      else
        fetchLoop pages maxItems fuel (page + 1) acc' (reqs + 1)

/-- `fetch_paginated_data`: the final
`return items if not max_items else items[:max_items]`. -/
def fetch_paginated_data (pages : Nat → List α) (maxItems : Option Nat)
    (fuel : Nat) : Option (List α) :=
  (fetchLoop pages maxItems fuel 0 [] 0).map
    (fun r => if capTruthy maxItems then r.1.take (maxItems.getD 0) else r.1)

/-- Number of search requests a pagination run issues. -/
def fetchRequestCount (pages : Nat → List α) (maxItems : Option Nat)
    (fuel : Nat) : Option Nat :=
  (fetchLoop pages maxItems fuel 0 [] 0).map (·.2)

/-- A server holding `xs` in total and serving them in full pages of
`PAGE_SIZE` until exhausted. -/
def serverPages (xs : List α) (p : Nat) : List α :=
  (xs.drop (p * PAGE_SIZE)).take PAGE_SIZE

/-! ## Batch writers (`alvys_insert.py` `batch_insert`,
`inserts/trips_insert.py` `bulk_insert`) -/

/-- `BATCH_SIZE = 500` in `alvys_insert.py` (and in
`inserts/active_entities_insert.py`). -/
def BATCH_SIZE : Nat := 500

/-- `CHUNK_SIZE = 1_000` in `inserts/trips_insert.py`. -/
def CHUNK_SIZE : Nat := 1000

/-- Python dict assignment `rec[k] = v`: overwrite in place (keeping the
key's position) when the key exists, else append at the end.  Keys of a
Python dict are unique, so replacing the first occurrence is exact. -/
def rowSet (r : JObj) (k : String) (v : JVal) : JObj :=
  match r with
  | [] => [(k, v)]
  | (k0, v0) :: rest => if k0 == k then (k, v) :: rest else (k0, v0) :: rowSet rest k v

/-- Fuel-indexed worker for `chunksOf` (structural recursion so that the
kernel can evaluate it; the wrapper passes `l.length`, which always
suffices). -/
def chunksOfF (B : Nat) : Nat → List α → List (List α)
  | _, [] => []
  | 0, _ :: _ => []
  | fuel + 1, x :: xs => (x :: xs).take B :: chunksOfF B fuel (xs.drop (B - 1))

/-- The slices `df.iloc[i:i+B]` for `i in range(0, len(df), B)` (`B > 0`). -/
def chunksOf (B : Nat) (l : List α) : List (List α) := chunksOfF B l.length l

/-- Observable outcome of one `batch_insert` call. -/
structure WriterRun where
  /-- Row lists passed to `cursor.executemany`, in order. -/
  chunks : List (List JObj)
  /-- Whether `conn.commit()` ran. -/
  committed : Bool
  /-- Whether the "No data to insert" notice was printed. -/
  noOpNotice : Bool
  /-- Clock ticks consumed after the call (each `datetime.now()` call
  advances the tick). -/
  tickAfter : Nat

/-- `batch_insert(table, records, conn)`: an empty record list returns
before `datetime.now()`, the DataFrame build, and any cursor work; otherwise
one timestamp is captured and stamped onto every record, and the rows are
written in `BATCH_SIZE`-sized `executemany` chunks followed by one commit.
`datetime.now()` is modelled by reading `clock` at the current tick. -/
def batchInsertRun (clock : Nat → Int) (tick : Nat) (records : List JObj) :
    WriterRun :=
  if records.isEmpty then
    { chunks := [], committed := false, noOpNotice := true, tickAfter := tick }
  else
    let insertedDttm := JVal.dt (clock tick) none
    let stamped := records.map (fun rec => rowSet rec "INSERTED_DTTM" insertedDttm)
    { chunks := chunksOf BATCH_SIZE stamped
      committed := true
      noOpNotice := false
      tickAfter := tick + 1 }

/-- Observable outcome of one `bulk_insert` call (trips inserter). -/
structure BulkRun (α : Type) where
  /-- Row chunks handed to `df.to_sql` (chunksize = `CHUNK_SIZE`). -/
  chunks : List (List α)
  /-- Whether any write was attempted. -/
  wrote : Bool
  /-- Whether the "No records" notice was printed. -/
  noOpNotice : Bool

/-- `bulk_insert(engine, table, df, dtype_map)`: an empty DataFrame returns
before touching the engine; otherwise `to_sql` appends the rows in
`CHUNK_SIZE`-sized chunks.  (The `df.where(pd.notnull(df), None)` NaN
normalization is the identity in this model, which has no IEEE NaN.) -/
def bulkInsertRun (df : List α) : BulkRun α :=
  if df.isEmpty then { chunks := [], wrote := false, noOpNotice := true }
  else { chunks := chunksOf CHUNK_SIZE df, wrote := true, noOpNotice := false }

/-- The per-file loop of `build_dfs`: one trip row and one stop-row block per
record, all sharing the module-level `RUN_TS` value passed in as `runTs`. -/
def buildRows (fileId : Option String) (runTs : JVal) :
    List JObj → Except PyErr (List (List JVal) × List (List JVal))
  | [] => .ok ([], [])
  | trip :: rest => do
    let tripRow ← flatten_trip trip fileId runTs
    let stopRows ← flatten_stops trip fileId runTs
    let (trips, stops) ← buildRows fileId runTs rest
    .ok (tripRow :: trips, stopRows ++ stops)

/-! ## Week-range arithmetic (`utils/dates.py`)

A tz-aware UTC datetime is microseconds since the epoch (the claims fix
`tz = timezone.utc`, under which `astimezone`/`replace(tzinfo=tz)` are the
identity).  Python `%` and `//` on ints floor, hence `Int.fmod`/`Int.fdiv`. -/

/-- `datetime.weekday()`: Monday = 0 … Sunday = 6 (1970-01-01 was a
Thursday). -/
def weekdayPy (t : Int) : Int := Int.fmod (Int.fdiv t usecPerDay + 3) 7

/-- `.replace(hour=0, minute=0, second=0, microsecond=0)`. -/
def floorDay (t : Int) : Int := Int.fdiv t usecPerDay * usecPerDay

/-- `_start_of_week(ref, tz)`: the current week's Sunday 00:00. -/
def start_of_week (ref : Int) : Int :=
  let daysSinceSunday := Int.fmod (weekdayPy ref + 1) 7
  floorDay (ref - daysSinceSunday * usecPerDay)

/-- `get_last_week_range(reference, tz)` for a non-`None` datetime
reference: (last week's Sunday 00:00, this week's Sunday minus 1 ms). -/
def get_last_week_range (reference : Int) : Int × Int :=
  let thisWeekSunday := start_of_week reference
  let lastWeekSunday := thisWeekSunday - 7 * usecPerDay
  (lastWeekSunday, thisWeekSunday - usecPerMs)

/-! ## CLI dispatch (`main.py`)

`run_export` / `run_insert` as traces of observable actions.  The essential
point: `run_export` passes the *integer* `weeks_ago` to
`get_last_week_range` as its `reference` argument, whose non-`None` branch
immediately calls `reference.astimezone(tz)` — an `AttributeError` on an
`int` — so the export path dies on its first line, before the credential
lookup and before the dry-run check. -/

/-- The argument `run_export` hands to `get_last_week_range`. -/
inductive PyDtArg where
  | noneV
  | intV (n : Int)
  | dtV (t : Int)

/-- `get_last_week_range` on an arbitrary Python argument: `None` is
replaced by `datetime.now(tz)` (the `now` parameter); a datetime goes
through the arithmetic above; an int reaches `ref.astimezone(tz)` inside
`_start_of_week` and raises `AttributeError`. -/
def get_last_week_range_py (now : Int) : PyDtArg → Except PyErr (Int × Int)
  | .noneV => .ok (get_last_week_range now)
  | .dtV t => .ok (get_last_week_range t)
  | .intV _ => .error .attributeError

/-- Observable CLI actions. -/
inductive Event where
  | printDryRunExport
  | printDryRunInsert
  | credentialLookup
  | tokenRequest
  | searchRequest
  | fileWrite
  | insertModuleRun (entity : String)
  deriving DecidableEq, Repr

/-- `run_export(scac, entities, weeks_ago, dry_run)`. -/
def runExport (weeksAgo : Int) (dryRun : Bool) (now : Int) :
    List Event × Except PyErr Unit :=
  match get_last_week_range_py now (.intV weeksAgo) with
  | .error e => ([], .error e)
  | .ok _ =>
    -- creds = get_credentials(scac): a warehouse query
    let pre := [Event.credentialLookup]
    if dryRun then (pre ++ [Event.printDryRunExport], .ok ())
    else (pre ++ [Event.tokenRequest, Event.searchRequest, Event.fileWrite], .ok ())

/-- `run_insert(scac, entities, dry_run)`: the dry-run check is the first
statement. -/
def runInsert (entities : List String) (dryRun : Bool) :
    List Event × Except PyErr Unit :=
  if dryRun then ([Event.printDryRunInsert], .ok ())
  else (entities.map Event.insertModuleRun, .ok ())

/-- CLI subcommands. -/
inductive Cmd where
  | export
  | insert
  | exportInsert
  deriving DecidableEq

/-- `main()` dispatch over the three subcommands. -/
def mainDispatch (cmd : Cmd) (entities : List String) (weeksAgo : Int)
    (dryRun : Bool) (now : Int) : List Event × Except PyErr Unit :=
  match cmd with
  | .export => runExport weeksAgo dryRun now
  | .insert => runInsert entities dryRun
  | .exportInsert =>
    let (t, r) := runExport weeksAgo dryRun now
    match r with
    | .error e => (t, .error e)
    | .ok _ =>
      let (t2, r2) := runInsert entities dryRun
      (t ++ t2, r2)

/-- Events that are I/O effects (everything except console prints). -/
def Event.isIO : Event → Bool
  | .printDryRunExport => false
  | .printDryRunInsert => false
  | _ => true

/-! ## Well-formedness of raw records

The sanitizers are *not* total: a nested field holding `null` (or any
non-object) where the code chains `.get`, or a flag that `int()` cannot
coerce, raises.  These decidable predicates capture exactly the fallible
steps of each sanitizer. -/

/-- Is the value a string? -/
def isStrD : JVal → Bool
  | .str _ => true
  | _ => false

/-- `sanitize_driver` succeeds: `Address` and `Fleet` are objects (or
absent) and `IsActive` is `int()`-coercible (or absent). -/
def WFdriver (d : JObj) : Bool :=
  isObjD (dGetD d "Address" (.obj [])) && isObjD (dGetD d "Fleet" (.obj [])) &&
  isOkE (pyInt (dGetD d "IsActive" (.bool false)))

/-- `sanitize_truck` succeeds: `Fleet` is an object (or absent). -/
def WFtruck (t : JObj) : Bool := isObjD (dGetD t "Fleet" (.obj []))

/-- `sanitize_customer` succeeds: `BillingAddress` is an object (or absent)
whose four address components are strings (or absent), and
`InvoicingInformation` is an object (or absent). -/
def WFcustomer (c : JObj) : Bool :=
  (match dGetD c "BillingAddress" (.obj []) with
   | .obj b =>
     isStrD (dGetD b "Street" (.str "")) && isStrD (dGetD b "City" (.str "")) &&
     isStrD (dGetD b "State" (.str "")) && isStrD (dGetD b "ZipCode" (.str ""))
   | _ => false) &&
  isObjD (dGetD c "InvoicingInformation" (.obj []))

/-- `sanitize_carrier` succeeds: `Address` is an object (or absent). -/
def WFcarrier (c : JObj) : Bool := isObjD (dGetD c "Address" (.obj []))

/-- `flatten_trip` succeeds: `CarrierPayOnHold` (or-`False`) is
`int()`-coercible. -/
def WFtrip (t : JObj) : Bool :=
  isOkE (pyInt (pyOr (dGet t "CarrierPayOnHold") (.bool false)))

/-- One stop flattens: the stop is itself an object, its
`Address`/`Coordinates` are objects (or absent), and the two appointment
flags are `int()`-coercible (or absent). -/
def WFstop : JVal → Bool
  | .obj kvs =>
    isObjD (dGetD kvs "Address" (.obj [])) &&
    isObjD (dGetD kvs "Coordinates" (.obj [])) &&
    isOkE (pyInt (pyOr (dGet kvs "AppointmentRequested") (.bool false))) &&
    isOkE (pyInt (pyOr (dGet kvs "AppointmentConfirmed") (.bool false)))
  | _ => false

/-- `flatten_stops` succeeds: `Stops` is a list (or absent) of
well-formed stops. -/
def WFstops (t : JObj) : Bool :=
  match dGetD t "Stops" (.arr []) with
  | .arr xs => xs.all WFstop
  | _ => false

/-- Column names of a successful sanitizer run (`none` when it raised). -/
def okCols (r : Except PyErr JObj) : Option (List String) :=
  match r with
  | .ok row => some (row.map (fun kv => kv.1))
  | .error _ => none

/-- Width of a successful positional row (`none` when it raised). -/
def okLen (r : Except PyErr (List JVal)) : Option Nat :=
  match r with
  | .ok row => some row.length
  | .error _ => none

/-- Column lookup inside a successful sanitizer run. -/
def lookupOk (r : Except PyErr JObj) (k : String) : Option JVal :=
  match r with
  | .ok row => jLookup row k
  | .error _ => none

/-- The (ID, STOP_SEQUENCE) projection of a stop-flattening run. -/
def idSeqOf (r : Except PyErr (List (List JVal))) :
    List (Option JVal × Option JVal) :=
  match r with
  | .ok rows => rows.map (fun row => (row[0]?, row[3]?))
  | .error _ => []

/-! ## Lemmas about the pagination loop -/

/-- Whatever the loop returns extends its accumulator by whole batches of
consecutive pages. -/
theorem fetchLoop_batches (pages : Nat → List α) (cap : Option Nat) :
    ∀ (fuel page : Nat) (acc : List α) (reqs : Nat) (l : List α) (r : Nat),
      fetchLoop pages cap fuel page acc reqs = some (l, r) →
      ∃ n, l = acc ++ ((List.range' page n).map pages).flatten := by
  intro fuel
  induction fuel with
  | zero => intro page acc reqs l r h; simp [fetchLoop] at h
  | succ fuel ih =>
    intro page acc reqs l r h
    simp only [fetchLoop] at h
    by_cases hb : (pages page).isEmpty
    · simp only [hb, if_true] at h
      refine ⟨0, ?_⟩
      cases h
      simp
    · simp only [hb, if_false] at h
      by_cases hstop : (pages page).length < PAGE_SIZE ∨
          (capTruthy cap = true ∧ (cap.getD 0) ≤ (acc ++ pages page).length)
      · simp only [if_pos hstop] at h
        refine ⟨1, ?_⟩
        cases h
        simp [List.range']
      · simp only [if_neg hstop] at h
        obtain ⟨n, hn⟩ := ih (page + 1) (acc ++ pages page) (reqs + 1) l r h
        refine ⟨n + 1, ?_⟩
        rw [hn]
        simp [List.range'_succ]

/-- With the full-pages server, the loop from page `p` returns all remaining
items and issues `remaining/PAGE_SIZE + 1` further requests, given enough
fuel. -/
theorem fetchLoop_server (xs : List α) :
    ∀ (fuel p : Nat) (acc : List α) (reqs : Nat),
      (xs.drop (p * PAGE_SIZE)).length / PAGE_SIZE + 1 ≤ fuel →
      fetchLoop (serverPages xs) none fuel p acc reqs =
        some (acc ++ xs.drop (p * PAGE_SIZE),
              reqs + ((xs.drop (p * PAGE_SIZE)).length / PAGE_SIZE + 1)) := by
  intro fuel
  induction fuel with
  | zero => intro p acc reqs h; exact absurd h (Nat.not_succ_le_zero _)
  | succ fuel ih =>
    intro p acc reqs h
    have hbatch : serverPages xs p = (xs.drop (p * PAGE_SIZE)).take PAGE_SIZE := rfl
    simp only [fetchLoop, hbatch]
    cases hrest : xs.drop (p * PAGE_SIZE) with
    | nil => simp [hrest, Nat.div_eq_of_lt, PAGE_SIZE]
    | cons x rtl =>
      have hne : ((x :: rtl).take PAGE_SIZE).isEmpty = false := by
        simp [PAGE_SIZE]
      rw [hne]
      simp only [Bool.false_eq_true, if_false]
      by_cases hshort : (x :: rtl).length < PAGE_SIZE
      · have htake : (x :: rtl).take PAGE_SIZE = x :: rtl :=
          List.take_of_length_le (le_of_lt hshort)
        have hcond : ((x :: rtl).take PAGE_SIZE).length < PAGE_SIZE ∨
            (capTruthy (none : Option Nat) = true ∧
              ((none : Option Nat).getD 0) ≤ (acc ++ (x :: rtl).take PAGE_SIZE).length) := by
          left; rw [htake]; exact hshort
        rw [if_pos hcond, htake, Nat.div_eq_of_lt hshort]
      · push_neg at hshort
        have hlen : ((x :: rtl).take PAGE_SIZE).length = PAGE_SIZE := by
          rw [List.length_take]
          omega
        have hcond : ¬ (((x :: rtl).take PAGE_SIZE).length < PAGE_SIZE ∨
            (capTruthy (none : Option Nat) = true ∧
              ((none : Option Nat).getD 0) ≤ (acc ++ (x :: rtl).take PAGE_SIZE).length)) := by
          rw [hlen]
          simp [capTruthy]
        rw [if_neg hcond]
        rw [hrest] at h
        have hdropstep : xs.drop ((p + 1) * PAGE_SIZE) = (x :: rtl).drop PAGE_SIZE := by
          rw [← hrest, List.drop_drop]
          congr 1
          ring
        have hdivstep : (x :: rtl).length / PAGE_SIZE =
            ((x :: rtl).length - PAGE_SIZE) / PAGE_SIZE + 1 :=
          Nat.div_eq_sub_div (by simp [PAGE_SIZE]) hshort
        have hfuel : (xs.drop ((p + 1) * PAGE_SIZE)).length / PAGE_SIZE + 1 ≤ fuel := by
          rw [hdropstep, List.length_drop]
          rw [hdivstep] at h
          generalize hA : ((x :: rtl).length - PAGE_SIZE) / PAGE_SIZE = A at h ⊢
          omega
        rw [ih (p + 1) (acc ++ (x :: rtl).take PAGE_SIZE) (reqs + 1) hfuel, hdropstep]
        simp only [Option.some.injEq, Prod.mk.injEq]
        constructor
        · rw [List.append_assoc, List.take_append_drop]
        · rw [List.length_drop, hdivstep]
          generalize ((x :: rtl).length - PAGE_SIZE) / PAGE_SIZE = A
          omega

/-- **C2, amended.** For every endpoint response sequence, every supplied
item cap, and every fuel bound under which the pagination loop terminates:
the returned list never exceeds a *positive* cap (Python truthiness makes a
cap of `0` behave like no cap at all, which is the one carve-out the code
forces on the claim), and the returned list is a prefix of the concatenation
of the server's batches in server order. -/
theorem claim_c2_cap_and_order (pages : Nat → List α) (cap : Option Nat)
    (fuel : Nat) (l : List α)
    (h : fetch_paginated_data pages cap fuel = some l) :
    (∀ n, cap = some n → 0 < n → l.length ≤ n) ∧
    ∃ k t, l ++ t = ((List.range k).map pages).flatten := by
  unfold fetch_paginated_data at h
  cases hl : fetchLoop pages cap fuel 0 [] 0 with
  | none => rw [hl] at h; simp at h
  | some pr =>
    obtain ⟨l0, r0⟩ := pr
    rw [hl] at h
    simp only [Option.map_some', Option.some.injEq] at h
    obtain ⟨n, hn⟩ := fetchLoop_batches pages cap fuel 0 [] 0 l0 r0 hl
    rw [List.nil_append, ← List.range_eq_range'] at hn
    by_cases hcap : capTruthy cap = true
    · rw [if_pos hcap] at h
      constructor
      · intro m hm _
        rw [← h, List.length_take, hm]
        simp
      · refine ⟨n, l0.drop (cap.getD 0), ?_⟩
        rw [← h, List.take_append_drop, hn]
    · rw [if_neg hcap] at h
      constructor
      · intro m hm hpos
        rw [hm] at hcap
        simp [capTruthy] at hcap
        omega
      · exact ⟨n, [], by rw [List.append_nil, ← h, hn]⟩

/-- **C2, counterexample to the claim as stated.** With a supplied cap of
`max_items = 0` and a server whose first batch holds one item, the function
returns that item: the result length exceeds the supplied cap, because
`0` is falsy in both `max_items and len(items) >= max_items` and
`items if not max_items else items[:max_items]`. -/
theorem claim_c2_cex :
    fetch_paginated_data (fun _ => [(0 : Nat)]) (some 0) 2 = some [0] ∧
    ¬ (([(0 : Nat)] : List Nat).length ≤ 0) :=
  ⟨rfl, by decide⟩

/-- **C2, witness.** The amended theorem applied at a concrete server
(always-empty batches), cap `1`, fuel `1`. -/
theorem claim_c2_witness :
    ([] : List Nat).length ≤ 1 ∧
    ∃ k t, ([] : List Nat) ++ t =
      ((List.range k).map (fun _ => ([] : List Nat))).flatten := by
  have h := claim_c2_cap_and_order (fun _ => ([] : List Nat)) (some 1) 1 [] rfl
  exact ⟨h.1 1 rfl (by decide), h.2⟩

/-- **C3, amended.** Against a server holding `N` items and serving them in
full pages of `PAGE_SIZE` until exhausted, an uncapped fetch issues exactly
`N / PAGE_SIZE + 1` search requests (and returns all `N` items).  This
equals `ceil(N / pageSize)` whenever `pageSize` does not divide `N`; when it
does (including `N = 0`), the loop needs one extra request to observe the
empty page. -/
theorem claim_c3_request_count (xs : List α) (fuel : Nat)
    (h : xs.length / PAGE_SIZE + 1 ≤ fuel) :
    fetchRequestCount (serverPages xs) none fuel =
      some (xs.length / PAGE_SIZE + 1) ∧
    fetch_paginated_data (serverPages xs) none fuel = some xs := by
  have hl := fetchLoop_server xs fuel 0 [] 0 (by simpa using h)
  simp only [Nat.zero_mul, List.drop_zero, List.nil_append] at hl
  constructor
  · unfold fetchRequestCount
    rw [hl]
    simp
  · unfold fetch_paginated_data
    rw [hl]
    simp [capTruthy]

set_option maxRecDepth 4000 in
/-- **C3, counterexample to the claim as stated.** For `N = 200` available
items (one exact full page), the loop issues 2 requests — the full page,
then the empty page that stops it — while `ceil(200 / 200) = 1`. -/
theorem claim_c3_cex :
    fetchRequestCount (serverPages (List.range 200)) none 3 = some 2 ∧
    (200 + PAGE_SIZE - 1) / PAGE_SIZE = 1 ∧ (2 : Nat) ≠ 1 :=
  ⟨rfl, by decide, by decide⟩

/-- **C3, witness.** The amended count theorem at a concrete 3-item server:
one request suffices and all items come back. -/
theorem claim_c3_witness :
    fetchRequestCount (serverPages [(5 : Nat), 6, 7]) none 2 = some 1 ∧
    fetch_paginated_data (serverPages [(5 : Nat), 6, 7]) none 2 = some [5, 6, 7] := by
  have h := claim_c3_request_count [(5 : Nat), 6, 7] 2 (by decide)
  have he : ([(5 : Nat), 6, 7] : List Nat).length / PAGE_SIZE + 1 = 1 := by decide
  rw [he] at h
  exact h

/-! ## Week-range lemmas (C5) -/

theorem usecPerDay_pos : (0 : Int) < usecPerDay := by decide

/-- `weekdayPy` via Euclidean division (valid because both moduli are
positive). -/
theorem weekdayPy_eq (t : Int) : weekdayPy t = (t / usecPerDay + 3) % 7 := by
  unfold weekdayPy
  rw [Int.fdiv_eq_ediv _ (le_of_lt usecPerDay_pos), Int.fmod_eq_emod _ (by decide)]

theorem floorDay_eq (t : Int) : floorDay t = t / usecPerDay * usecPerDay := by
  unfold floorDay
  rw [Int.fdiv_eq_ediv _ (le_of_lt usecPerDay_pos)]

/-- A day-aligned instant divides exactly. -/
theorem ediv_mul_day (k : Int) : k * usecPerDay / usecPerDay = k :=
  Int.mul_ediv_cancel k (by decide)

/-- Dividing `k * day + r` with `0 ≤ r < day` gives `k`. -/
theorem ediv_mul_day_add (k r : Int) (h0 : 0 ≤ r) (h1 : r < usecPerDay) :
    (k * usecPerDay + r) / usecPerDay = k := by
  rw [Int.add_comm, Int.add_mul_ediv_right _ _ (by decide : usecPerDay ≠ 0),
    Int.ediv_eq_zero_of_lt h0 h1, Int.zero_add]

/-- **C5, amended.** For a reference datetime on a Monday (UTC),
`get_last_week_range` returns the *previous full* Sunday-to-Saturday week:
the start is the Sunday **eight** days before the Monday (not the Sunday
immediately preceding it) at 00:00:00.000 UTC, and the end is 23:59:59.999
on the Saturday six days after that start (i.e. two days before the
Monday).  Python weekday numbering: Sunday = 6, Saturday = 5. -/
theorem claim_c5_last_week_range (t : Int) (h : weekdayPy t = 0) :
    get_last_week_range t =
      (floorDay t - 8 * usecPerDay, floorDay t - usecPerDay - usecPerMs) ∧
    weekdayPy (floorDay t - 8 * usecPerDay) = 6 ∧
    floorDay (floorDay t - 8 * usecPerDay) = floorDay t - 8 * usecPerDay ∧
    weekdayPy (floorDay t - usecPerDay - usecPerMs) = 5 ∧
    floorDay t - usecPerDay - usecPerMs =
      (floorDay t - 8 * usecPerDay) + 6 * usecPerDay + (usecPerDay - usecPerMs) := by
  have hD : t / usecPerDay * usecPerDay - 8 * usecPerDay =
      (t / usecPerDay - 8) * usecPerDay := by ring
  have hend : t / usecPerDay * usecPerDay - usecPerDay - usecPerMs =
      (t / usecPerDay - 2) * usecPerDay + (usecPerDay - usecPerMs) := by
    unfold usecPerDay usecPerMs
    ring
  have hwk : (t / usecPerDay + 3) % 7 = 0 := by rw [← weekdayPy_eq]; exact h
  refine ⟨?_, ?_, ?_, ?_, ?_⟩
  · -- the pair itself
    unfold get_last_week_range start_of_week
    rw [h]
    have h1 : Int.fmod (0 + 1) 7 = 1 := by decide
    rw [h1]
    have h2 : floorDay (t - 1 * usecPerDay) = floorDay t - usecPerDay := by
      rw [floorDay_eq, floorDay_eq]
      have : t - 1 * usecPerDay = t + (-1) * usecPerDay := by ring
      rw [this, Int.add_mul_ediv_right _ _ (by decide : usecPerDay ≠ 0)]
      ring
    rw [h2]
    dsimp only
    simp only [Prod.mk.injEq]
    exact ⟨by ring, trivial⟩
  · -- start falls on a Sunday
    rw [weekdayPy_eq, floorDay_eq, hD, ediv_mul_day]
    omega
  · -- start is at midnight
    rw [floorDay_eq, floorDay_eq, hD, ediv_mul_day]
  · -- end falls on a Saturday
    rw [weekdayPy_eq, floorDay_eq, hend,
      ediv_mul_day_add _ _ (by decide) (by decide)]
    omega
  · -- end is the last millisecond of the sixth day after the start
    ring

/-- **C5, counterexample to the claim as stated.** 1970-01-19 14:06:11 UTC
is a Monday; the Sunday immediately preceding it at 00:00 is day 17
(1970-01-18), but `get_last_week_range` starts the window at day 10
(1970-01-11) — a full week earlier. -/
theorem claim_c5_cex :
    weekdayPy (18 * usecPerDay + 50771000000) = 0 ∧
    (get_last_week_range (18 * usecPerDay + 50771000000)).1 = 10 * usecPerDay ∧
    (10 : Int) * usecPerDay ≠ 17 * usecPerDay ∧
    weekdayPy (17 * usecPerDay) = 6 ∧
    floorDay (17 * usecPerDay) = 17 * usecPerDay := by
  refine ⟨by decide, by decide, by decide, by decide, by decide⟩

/-- **C5, witness.** The amended theorem applied at the concrete Monday
1970-01-19 14:06:11 UTC. -/
theorem claim_c5_witness :
    get_last_week_range (18 * usecPerDay + 50771000000) =
      (10 * usecPerDay, 17 * usecPerDay - usecPerMs) := by
  have h := claim_c5_last_week_range (18 * usecPerDay + 50771000000) (by decide)
  exact h.1.trans (by decide)

/-! ## Lemmas about `Except` binds, `rowSet` and `chunksOf` -/

/-- A monadic bind in `Except` succeeds exactly when both stages do. -/
theorem bindOk {ε α β : Type} {x : Except ε α} {f : α → Except ε β} {b : β} :
    (x >>= f) = .ok b ↔ ∃ a, x = .ok a ∧ f a = .ok b := by
  cases x <;> simp [Bind.bind, Except.bind]

/-- After `rec[k] = v`, looking up `k` yields `v`. -/
theorem jLookup_rowSet (r : JObj) (k : String) (v : JVal) :
    jLookup (rowSet r k v) k = some v := by
  induction r with
  | nil => simp [rowSet, jLookup]
  | cons kv rest ih =>
    obtain ⟨k0, v0⟩ := kv
    by_cases hk : (k0 == k) = true
    · simp [rowSet, hk, jLookup]
    · rw [rowSet, if_neg (by simpa using hk)]
      show jLookup ((k0, v0) :: rowSet rest k v) k = some v
      unfold jLookup
      have hstep : List.find? (fun kv => kv.1 == k) ((k0, v0) :: rowSet rest k v) =
          List.find? (fun kv => kv.1 == k) (rowSet rest k v) :=
        List.find?_cons_of_neg _ hk
      rw [hstep]
      exact ih

/-- With sufficient fuel the worker is fuel-independent. -/
theorem chunksOfF_fuel (B : Nat) :
    ∀ (fuel fuel2 : Nat) (l : List α), l.length ≤ fuel → l.length ≤ fuel2 →
      chunksOfF B fuel l = chunksOfF B fuel2 l := by
  intro fuel
  induction fuel with
  | zero =>
    intro fuel2 l hl _
    cases l with
    | nil => cases fuel2 <;> rfl
    | cons x xs => simp at hl
  | succ fuel ih =>
    intro fuel2 l hl hl2
    cases l with
    | nil => cases fuel2 <;> rfl
    | cons x xs =>
      cases fuel2 with
      | zero => simp at hl2
      | succ fuel2 =>
        simp only [chunksOfF]
        congr 1
        have hd : (xs.drop (B - 1)).length ≤ fuel := by
          simp only [List.length_drop]
          simp only [List.length_cons] at hl
          omega
        have hd2 : (xs.drop (B - 1)).length ≤ fuel2 := by
          simp only [List.length_drop]
          simp only [List.length_cons] at hl2
          omega
        exact ih fuel2 (xs.drop (B - 1)) hd hd2

/-- Re-joining the `iloc` chunks restores the row list. -/
theorem chunksOf_flatten (B : Nat) (hB : 0 < B) :
    ∀ (l : List α), (chunksOf B l).flatten = l := by
  suffices h : ∀ (fuel : Nat) (l : List α), l.length ≤ fuel →
      (chunksOfF B fuel l).flatten = l by
    intro l
    exact h l.length l (le_refl _)
  intro fuel
  induction fuel with
  | zero =>
    intro l hl
    cases l with
    | nil => rfl
    | cons x xs => simp at hl
  | succ fuel ih =>
    intro l hl
    cases l with
    | nil => rfl
    | cons x xs =>
      simp only [chunksOfF, List.flatten_cons]
      rw [ih _ (by simp only [List.length_drop]; simp only [List.length_cons] at hl; omega)]
      have hdrop : xs.drop (B - 1) = (x :: xs).drop B := by
        cases B with
        | zero => omega
        | succ b => simp
      rw [hdrop, List.take_append_drop]

/-- Every chunk is nonempty and holds at most `B` rows. -/
theorem chunksOf_mem_bounds (B : Nat) (hB : 0 < B) :
    ∀ (l : List α), ∀ c ∈ chunksOf B l, c ≠ [] ∧ c.length ≤ B := by
  suffices h : ∀ (fuel : Nat) (l : List α), l.length ≤ fuel →
      ∀ c ∈ chunksOfF B fuel l, c ≠ [] ∧ c.length ≤ B by
    intro l
    exact h l.length l (le_refl _)
  intro fuel
  induction fuel with
  | zero =>
    intro l hl
    cases l with
    | nil => simp [chunksOfF]
    | cons x xs => simp at hl
  | succ fuel ih =>
    intro l hl
    cases l with
    | nil => simp [chunksOfF]
    | cons x xs =>
      simp only [chunksOfF]
      intro c hc
      rcases List.mem_cons.mp hc with hc | hc
      · subst hc
        constructor
        · cases B with
          | zero => omega
          | succ b => simp
        · simp [List.length_take]
      · have hd : (xs.drop (B - 1)).length ≤ fuel := by
          simp only [List.length_drop]
          simp only [List.length_cons] at hl
          omega
        exact ih _ hd c hc

/-- Every chunk except the last is exactly full. -/
theorem chunksOf_full (B : Nat) (hB : 0 < B) :
    ∀ (l : List α) (i : Nat) (c : List α),
      (chunksOf B l)[i]? = some c → i + 1 < (chunksOf B l).length →
      c.length = B := by
  suffices h : ∀ (fuel : Nat) (l : List α), l.length ≤ fuel →
      ∀ (i : Nat) (c : List α),
        (chunksOfF B fuel l)[i]? = some c → i + 1 < (chunksOfF B fuel l).length →
        c.length = B by
    intro l
    exact h l.length l (le_refl _)
  intro fuel
  induction fuel with
  | zero =>
    intro l hl
    cases l with
    | nil => intro i c hc _; simp [chunksOfF] at hc
    | cons x xs => simp at hl
  | succ fuel ih =>
    intro l hl
    cases l with
    | nil => intro i c hc _; simp [chunksOfF] at hc
    | cons x xs =>
      intro i c hc hlt
      simp only [chunksOfF] at hc hlt
      have hfl : (xs.drop (B - 1)).length ≤ fuel := by
        simp only [List.length_drop]
        simp only [List.length_cons] at hl
        omega
      cases i with
      | zero =>
        simp only [List.getElem?_cons_zero, Option.some.injEq] at hc
        subst hc
        simp only [List.length_cons] at hlt
        have htail : chunksOfF B fuel (xs.drop (B - 1)) ≠ [] := by
          intro hnil
          rw [hnil] at hlt
          simp at hlt
        have hrest : xs.drop (B - 1) ≠ [] := by
          intro hnil
          rw [hnil] at htail
          cases fuel <;> simp [chunksOfF] at htail
        have hxs : B - 1 < xs.length := by
          by_contra hge
          push_neg at hge
          exact hrest (List.drop_eq_nil_of_le hge)
        rw [List.length_take]
        simp only [List.length_cons]
        omega
      | succ j =>
        simp only [List.getElem?_cons_succ] at hc
        simp only [List.length_cons] at hlt
        exact ih _ hfl j c hc (by omega)

/-- A successful `flatten_trip` row ends in the run timestamp. -/
theorem flatten_trip_runTs (trip : JObj) (fid : Option String) (runTs : JVal)
    (row : List JVal) (h : flatten_trip trip fid runTs = .ok row) :
    row.getLast? = some runTs := by
  unfold flatten_trip at h
  rw [bindOk] at h
  obtain ⟨n, _, hrow⟩ := h
  simp only [Except.ok.injEq] at hrow
  rw [← hrow]
  rfl

/-- A successful `flattenStop` row ends in the run timestamp. -/
theorem flattenStop_runTs (tid tnum fid : Option String) (runTs : JVal)
    (seq : Nat) (stopV : JVal) (row : List JVal)
    (h : flattenStop tid tnum fid runTs seq stopV = .ok row) :
    row.getLast? = some runTs := by
  unfold flattenStop at h
  simp only [bindOk, Except.ok.injEq] at h
  obtain ⟨s, _, a1, _, a2, _, a3, _, a4, _, a5, _, a6, _, a7, _, a8, _, hrow⟩ := h
  rw [← hrow]
  rfl

/-- Every row produced by the stop loop ends in the run timestamp. -/
theorem flattenStopsGo_runTs (tid tnum fid : Option String) (runTs : JVal) :
    ∀ (elems : List JVal) (seq : Nat) (rows : List (List JVal)),
      flattenStopsGo tid tnum fid runTs seq elems = .ok rows →
      ∀ row ∈ rows, row.getLast? = some runTs := by
  intro elems
  induction elems with
  | nil =>
    intro seq rows h row hrow
    simp only [flattenStopsGo, Except.ok.injEq] at h
    rw [← h] at hrow
    simp at hrow
  | cons s rest ih =>
    intro seq rows h row hrow
    simp only [flattenStopsGo, bindOk, Except.ok.injEq] at h
    obtain ⟨r0, hr0, rs, hrs, hrows⟩ := h
    rw [← hrows] at hrow
    rcases List.mem_cons.mp hrow with hr | hr
    · subst hr
      exact flattenStop_runTs tid tnum fid runTs seq s row hr0
    · exact ih (seq + 1) rs hrs row hr

/-- Every row produced by `flatten_stops` ends in the run timestamp. -/
theorem flatten_stops_runTs (trip : JObj) (fid : Option String) (runTs : JVal)
    (rows : List (List JVal)) (h : flatten_stops trip fid runTs = .ok rows) :
    ∀ row ∈ rows, row.getLast? = some runTs := by
  unfold flatten_stops at h
  rw [bindOk] at h
  obtain ⟨elems, _, hgo⟩ := h
  exact flattenStopsGo_runTs _ _ _ _ elems 1 rows hgo

/-- Every trip row and every stop row built by `build_dfs` ends in the run
timestamp. -/
theorem buildRows_runTs (fid : Option String) (runTs : JVal) :
    ∀ (trips : List JObj) (tripRows stopRows : List (List JVal)),
      buildRows fid runTs trips = .ok (tripRows, stopRows) →
      (∀ row ∈ tripRows, row.getLast? = some runTs) ∧
      (∀ row ∈ stopRows, row.getLast? = some runTs) := by
  intro trips
  induction trips with
  | nil =>
    intro tripRows stopRows h
    simp only [buildRows, Except.ok.injEq, Prod.mk.injEq] at h
    obtain ⟨h1, h2⟩ := h
    rw [← h1, ← h2]
    simp
  | cons trip rest ih =>
    intro tripRows stopRows h
    simp only [buildRows, bindOk, Except.ok.injEq, Prod.mk.injEq] at h
    obtain ⟨tr, htr, srs, hsrs, ⟨trs, srs2⟩, hrest, h1, h2⟩ := h
    obtain ⟨ih1, ih2⟩ := ih trs srs2 hrest
    constructor
    · intro row hrow
      rw [← h1] at hrow
      rcases List.mem_cons.mp hrow with hr | hr
      · subst hr
        exact flatten_trip_runTs trip fid runTs row htr
      · exact ih1 row hr
    · intro row hrow
      rw [← h2] at hrow
      rcases List.mem_append.mp hrow with hr | hr
      · exact flatten_stops_runTs trip fid runTs srs hsrs row hr
      · exact ih2 row hr

/-- **C6 (confirmed).** All records stamped by one `batch_insert` call carry
the same `INSERTED_DTTM` — the clock value read once (at tick `tick`) before
the stamping loop, not re-read per row — and every trip row and stop row
built in one run of the trips inserter ends in the single module-level
`RUN_TS` value. -/
theorem claim_c6_single_timestamp (clock : Nat → Int) (tick : Nat)
    (records : List JObj) (fid : Option String) (runTs : JVal)
    (trips : List JObj) (tripRows stopRows : List (List JVal))
    (hb : buildRows fid runTs trips = .ok (tripRows, stopRows)) :
    (∀ row ∈ (batchInsertRun clock tick records).chunks.flatten,
        jLookup row "INSERTED_DTTM" = some (JVal.dt (clock tick) none)) ∧
    (∀ row ∈ tripRows, row.getLast? = some runTs) ∧
    (∀ row ∈ stopRows, row.getLast? = some runTs) := by
  obtain ⟨h1, h2⟩ := buildRows_runTs fid runTs trips tripRows stopRows hb
  refine ⟨?_, h1, h2⟩
  intro row hrow
  unfold batchInsertRun at hrow
  by_cases he : records.isEmpty
  · rw [if_pos he] at hrow
    simp at hrow
  · rw [if_neg he] at hrow
    simp only at hrow
    rw [chunksOf_flatten BATCH_SIZE (by decide)] at hrow
    obtain ⟨rec, _, hrec⟩ := List.mem_map.mp hrow
    rw [← hrec]
    exact jLookup_rowSet rec "INSERTED_DTTM" (JVal.dt (clock tick) none)

/-- **C6, witness.** A concrete two-record batch, stamped against a clock
whose value changes at every tick: the first stamped row carries the tick-0
value. -/
theorem claim_c6_witness :
    jLookup [("ID", JVal.str "a"), ("INSERTED_DTTM", JVal.dt 100 none)]
      "INSERTED_DTTM" = some (JVal.dt 100 none) ∧
    ∀ row ∈ ([] : List (List JVal)), row.getLast? = some (JVal.dt 7 none) := by
  have h := claim_c6_single_timestamp (fun n => 100 + n) 0
    [[("ID", JVal.str "a")], [("ID", JVal.str "b")]] none (JVal.dt 7 none)
    [] [] [] rfl
  exact ⟨h.1 _ (List.mem_cons_self _ _), h.2.1⟩

/-- **C7, amended.** The two `batch_insert` writers (`alvys_insert.py` and
`inserts/active_entities_insert.py`) chunk at `BATCH_SIZE = 500` rows per
`executemany` call, but the trips `bulk_insert` writes through `df.to_sql`
with `CHUNK_SIZE = 1_000`, not 500.  In all writers every issued chunk is
nonempty and at most the writer's chunk size, every chunk except the last
is exactly full, and concatenating the chunks in order restores the full
stamped row set. -/
theorem claim_c7_chunk_shape (clock : Nat → Int) (tick : Nat)
    (records : List JObj) (df : List (List JVal)) :
    BATCH_SIZE = 500 ∧ CHUNK_SIZE = 1000 ∧
    ((batchInsertRun clock tick records).chunks.flatten =
      if records.isEmpty then []
      else records.map
        (fun rec => rowSet rec "INSERTED_DTTM" (JVal.dt (clock tick) none))) ∧
    (∀ c ∈ (batchInsertRun clock tick records).chunks,
      c ≠ [] ∧ c.length ≤ BATCH_SIZE) ∧
    (∀ i c, (batchInsertRun clock tick records).chunks[i]? = some c →
      i + 1 < (batchInsertRun clock tick records).chunks.length →
      c.length = BATCH_SIZE) ∧
    ((bulkInsertRun df).chunks.flatten = if df.isEmpty then [] else df) ∧
    (∀ c ∈ (bulkInsertRun df).chunks, c ≠ [] ∧ c.length ≤ CHUNK_SIZE) ∧
    (∀ i c, (bulkInsertRun df).chunks[i]? = some c →
      i + 1 < (bulkInsertRun df).chunks.length → c.length = CHUNK_SIZE) := by
  refine ⟨rfl, rfl, ?_, ?_, ?_, ?_, ?_, ?_⟩
  · unfold batchInsertRun
    by_cases he : records.isEmpty
    · simp [he]
    · rw [if_neg he, if_neg he]
      simp only
      exact chunksOf_flatten BATCH_SIZE (by decide) _
  · unfold batchInsertRun
    by_cases he : records.isEmpty
    · simp [he]
    · rw [if_neg he]
      exact chunksOf_mem_bounds BATCH_SIZE (by decide) _
  · unfold batchInsertRun
    by_cases he : records.isEmpty
    · simp [he]
    · rw [if_neg he]
      exact chunksOf_full BATCH_SIZE (by decide) _
  · unfold bulkInsertRun
    by_cases he : df.isEmpty
    · simp [he]
    · rw [if_neg he, if_neg he]
      simp only
      exact chunksOf_flatten CHUNK_SIZE (by decide) _
  · unfold bulkInsertRun
    by_cases he : df.isEmpty
    · simp [he]
    · rw [if_neg he]
      exact chunksOf_mem_bounds CHUNK_SIZE (by decide) _
  · unfold bulkInsertRun
    by_cases he : df.isEmpty
    · simp [he]
    · rw [if_neg he]
      exact chunksOf_full CHUNK_SIZE (by decide) _

set_option maxRecDepth 100000 in
/-- **C7, counterexample to the claim as stated.** 1001 rows through the
trips `bulk_insert` go out as a full chunk of 1000 followed by one of 1 —
the first (non-last) chunk has 1000 rows, not 500, so not every batch
writer chunks at 500. -/
theorem claim_c7_cex :
    ((bulkInsertRun (List.replicate 1001 (0 : Nat))).chunks.map List.length) =
      [1000, 1] ∧ (1000 : Nat) ≠ 500 :=
  ⟨by decide, by decide⟩

/-- **C7, witness.** The amended shape theorem at a one-record batch: the
stamped row set round-trips through the chunks, and the single chunk is
nonempty and within the 500-row bound. -/
theorem claim_c7_witness :
    (batchInsertRun (fun _ => 7) 0 [[("ID", JVal.int 1)]]).chunks.flatten =
      [[("ID", JVal.int 1), ("INSERTED_DTTM", JVal.dt 7 none)]] ∧
    ([[("ID", JVal.int 1), ("INSERTED_DTTM", JVal.dt 7 none)]] ≠
      ([] : List JObj) ∧
     ([[("ID", JVal.int 1), ("INSERTED_DTTM", JVal.dt 7 none)]] :
      List JObj).length ≤ BATCH_SIZE) ∧
    BATCH_SIZE = 500 ∧ CHUNK_SIZE = 1000 := by
  have h := claim_c7_chunk_shape (fun _ => 7) 0 [[("ID", JVal.int 1)]]
    [[JVal.int 1]]
  refine ⟨?_, ?_, h.1, h.2.1⟩
  · rw [h.2.2.1]
    rfl
  · exact h.2.2.2.1 _ (List.mem_cons_self _ _)

/-- **C8 (confirmed).** A zero-row write is a recorded no-op: `batch_insert`
returns before reading the clock (`tickAfter = tick`), issues no
`executemany` chunk and no commit, and prints the no-op notice; the trips
`bulk_insert` likewise returns before touching the engine. -/
theorem claim_c8_empty_noop (clock : Nat → Int) (tick : Nat) (α : Type) :
    batchInsertRun clock tick [] =
      { chunks := [], committed := false, noOpNotice := true,
        tickAfter := tick } ∧
    bulkInsertRun ([] : List α) =
      { chunks := [], wrote := false, noOpNotice := true } :=
  ⟨rfl, rfl⟩

/-- **C9, amended.** The `insert` subcommand with `--dry-run` prints the
would-be action and returns successfully without any I/O event.  The
`export` and `export-insert` subcommands, however, never reach their
dry-run check: `run_export`'s first line raises an `AttributeError`
(see C10), so they terminate with an error — though still before any
network call or file/database write. -/
theorem claim_c9_dry_run (entities : List String) (weeksAgo : Int) (now : Int) :
    mainDispatch .insert entities weeksAgo true now =
      ([Event.printDryRunInsert], .ok ()) ∧
    (∀ e ∈ (mainDispatch .insert entities weeksAgo true now).1,
      e.isIO = false) ∧
    mainDispatch .export entities weeksAgo true now =
      ([], .error .attributeError) ∧
    mainDispatch .exportInsert entities weeksAgo true now =
      ([], .error .attributeError) := by
  refine ⟨rfl, ?_, rfl, rfl⟩
  intro e he
  simp only [mainDispatch, runInsert, if_true, List.mem_singleton] at he
  subst he
  rfl

/-- **C9, counterexample to the claim as stated.** The `export` subcommand
invoked with the dry-run flag does not print the would-be action and does
not return: it dies with an `AttributeError` (with an empty action trace). -/
theorem claim_c9_cex :
    (mainDispatch .export ["loads"] 1 true 0).2 = .error .attributeError ∧
    Event.printDryRunExport ∉ (mainDispatch .export ["loads"] 1 true 0).1 :=
  ⟨rfl, by decide⟩

/-- **C9, witness.** The amended theorem at a concrete invocation: the
dry-run insert's only trace event is the print, which is not an I/O
event. -/
theorem claim_c9_witness :
    mainDispatch .insert ["loads"] 1 true 0 =
      ([Event.printDryRunInsert], .ok ()) ∧
    Event.isIO Event.printDryRunInsert = false := by
  have h := claim_c9_dry_run ["loads"] 1 0
  exact ⟨h.1, h.2.1 Event.printDryRunInsert (by decide)⟩

/-- **C10 (confirmed).** `run_export` hands the *integer* `weeks_ago` to
`get_last_week_range` as its datetime `reference`; the non-`None` branch
immediately calls `reference.astimezone(tz)` inside `_start_of_week`, which
raises `AttributeError` on an `int`.  This happens on `run_export`'s first
line — before the dry-run check, the credential lookup, and any export work
(the trace is empty) — for every integer `weeks_ago` including the default
`1`, so the export subcommand never completes successfully through
`main.py`. -/
theorem claim_c10_export_crash (weeksAgo : Int) (dryRun : Bool) (now : Int)
    (entities : List String) :
    runExport weeksAgo dryRun now = ([], .error .attributeError) ∧
    (mainDispatch .export entities weeksAgo dryRun now).2 =
      .error .attributeError ∧
    (mainDispatch .exportInsert entities weeksAgo dryRun now).2 =
      .error .attributeError :=
  ⟨rfl, rfl, rfl⟩

/-! ## Sanitizer totality lemmas (C1, C4) -/

/-- Reduction of a successful bind (for rewriting under binders). -/
theorem okBind {ε α β : Type} (x : α) (f : α → Except ε β) :
    (Except.ok x >>= f) = f x := rfl

theorem isObjD_getAttr {v : JVal} (h : isObjD v = true) (k : String) :
    ∃ w, pyGetAttrGet v k = .ok w := by
  cases v <;> first | exact ⟨_, rfl⟩ | simp [isObjD] at h

theorem isObjD_getAttrD {v : JVal} (h : isObjD v = true) (k : String)
    (dflt : JVal) : ∃ w, pyGetAttrGetD v k dflt = .ok w := by
  cases v <;> first | exact ⟨_, rfl⟩ | simp [isObjD] at h

theorem isOkE_exists {ε α : Type} {e : Except ε α} (h : isOkE e = true) :
    ∃ a, e = .ok a := by
  cases e with
  | ok a => exact ⟨a, rfl⟩
  | error err => simp [isOkE] at h

theorem isStrD_exists {v : JVal} (h : isStrD v = true) : ∃ s, v = .str s := by
  cases v <;> first | exact ⟨_, rfl⟩ | simp [isStrD] at h

theorem pyJoin_strs4 (sep a b c d : String) :
    pyJoin sep [.str a, .str b, .str c, .str d] =
      .ok (String.intercalate sep [a, b, c, d]) := rfl

/-- `sanitize_driver` succeeds with the fixed driver column set on every
well-formed record. -/
theorem sanitize_driver_ok (d : JObj) (h : WFdriver d = true) :
    okCols (sanitize_driver d) = some DRIVER_COLS := by
  unfold WFdriver at h
  simp only [Bool.and_eq_true] at h
  obtain ⟨⟨hA, hF⟩, hI⟩ := h
  obtain ⟨zip, hzip⟩ := isObjD_getAttr hA "ZipCode"
  obtain ⟨f1, hf1⟩ := isObjD_getAttr hF "Id"
  obtain ⟨f2, hf2⟩ := isObjD_getAttr hF "Name"
  obtain ⟨ia, hia⟩ := isOkE_exists hI
  unfold sanitize_driver
  simp only [hzip, hf1, hf2, hia, okBind]
  rfl

/-- `sanitize_truck` succeeds with the fixed truck column set. -/
theorem sanitize_truck_ok (t : JObj) (h : WFtruck t = true) :
    okCols (sanitize_truck t) = some TRUCK_COLS := by
  unfold WFtruck at h
  obtain ⟨f1, hf1⟩ := isObjD_getAttr h "Id"
  obtain ⟨f2, hf2⟩ := isObjD_getAttr h "Name"
  unfold sanitize_truck
  simp only [hf1, hf2, okBind]
  rfl

/-- `sanitize_trailer` succeeds on *every* record (it touches no nested
object). -/
theorem sanitize_trailer_ok (t : JObj) :
    okCols (sanitize_trailer t) = some TRAILER_COLS := rfl

/-- `sanitize_customer` succeeds with the fixed customer column set. -/
theorem sanitize_customer_ok (c : JObj) (h : WFcustomer c = true) :
    okCols (sanitize_customer c) = some CUSTOMER_COLS := by
  unfold WFcustomer at h
  simp only [Bool.and_eq_true] at h
  obtain ⟨hB, hInv⟩ := h
  obtain ⟨i1, hi1⟩ := isObjD_getAttr hInv "InvoicingName"
  obtain ⟨i2, hi2⟩ := isObjD_getAttr hInv "InvoicingNameAlias"
  cases hBA : dGetD c "BillingAddress" (.obj []) with
  | obj b =>
    rw [hBA] at hB
    simp only [Bool.and_eq_true] at hB
    obtain ⟨⟨⟨h1, h2⟩, h3⟩, h4⟩ := hB
    obtain ⟨s1, hs1⟩ := isStrD_exists h1
    obtain ⟨s2, hs2⟩ := isStrD_exists h2
    obtain ⟨s3, hs3⟩ := isStrD_exists h3
    obtain ⟨s4, hs4⟩ := isStrD_exists h4
    unfold sanitize_customer
    simp only [hBA, pyGetAttrGetD, okBind, hs1, hs2, hs3, hs4, pyJoin_strs4,
      hi1, hi2]
    rfl
  | null => rw [hBA] at hB; simp at hB
  | bool bb => rw [hBA] at hB; simp at hB
  | int n => rw [hBA] at hB; simp at hB
  | float q => rw [hBA] at hB; simp at hB
  | str s => rw [hBA] at hB; simp at hB
  | arr xs => rw [hBA] at hB; simp at hB
  | dt w o => rw [hBA] at hB; simp at hB

/-- `sanitize_carrier` succeeds with the fixed carrier column set. -/
theorem sanitize_carrier_ok (c : JObj) (h : WFcarrier c = true) :
    okCols (sanitize_carrier c) = some CARRIER_COLS := by
  unfold WFcarrier at h
  obtain ⟨a1, ha1⟩ := isObjD_getAttr h "City"
  obtain ⟨a2, ha2⟩ := isObjD_getAttr h "State"
  obtain ⟨a3, ha3⟩ := isObjD_getAttr h "ZipCode"
  unfold sanitize_carrier
  simp only [ha1, ha2, ha3, okBind]
  rfl

/-- `flatten_trip` succeeds with the full 43-column positional row. -/
theorem flatten_trip_ok (t : JObj) (fid : Option String) (ts : JVal)
    (h : WFtrip t = true) :
    okLen (flatten_trip t fid ts) = some TRIP_COLS.length := by
  unfold WFtrip at h
  obtain ⟨n, hn⟩ := isOkE_exists h
  unfold flatten_trip
  simp only [hn, okBind]
  rfl

/-- One well-formed stop flattens to a full-width row whose
`STOP_SEQUENCE` is the loop counter and whose `ID` is
`_s(stop.get("Id") or f"{trip_id}_{seq}", 100)`. -/
theorem flattenStop_ok (tid tnum fid : Option String) (ts : JVal) (seq : Nat)
    (kvs : JObj) (h : WFstop (.obj kvs) = true) :
    ∃ row, flattenStop tid tnum fid ts seq (.obj kvs) = .ok row ∧
      row.length = STOP_COLS.length ∧
      row[3]? = some (.int seq) ∧
      row[0]? = some (oJ (pyS (pyOr (dGet kvs "Id")
        (.str (synthStopId tid seq))) (some 100))) := by
  unfold WFstop at h
  simp only [Bool.and_eq_true] at h
  obtain ⟨⟨⟨hA, hC⟩, hR⟩, hK⟩ := h
  obtain ⟨w1, hw1⟩ := isObjD_getAttr hA "Street"
  obtain ⟨w2, hw2⟩ := isObjD_getAttr hA "City"
  obtain ⟨w3, hw3⟩ := isObjD_getAttr hA "State"
  obtain ⟨w4, hw4⟩ := isObjD_getAttr hA "ZipCode"
  obtain ⟨w5, hw5⟩ := isObjD_getAttr hC "Latitude"
  obtain ⟨w6, hw6⟩ := isObjD_getAttr hC "Longitude"
  obtain ⟨n1, hn1⟩ := isOkE_exists hR
  obtain ⟨n2, hn2⟩ := isOkE_exists hK
  unfold flattenStop
  simp only [asDict, okBind, hn1, hn2, hw1, hw2, hw3, hw4, hw5, hw6]
  exact ⟨_, rfl, rfl, rfl, rfl⟩

/-- The stop loop: one row per source stop, in source order, with sequence
numbers counting up from the starting value, full-width rows, and the
documented ID rule per row. -/
theorem flattenStopsGo_spec (tid tnum fid : Option String) (ts : JVal) :
    ∀ (xs : List JVal) (seq : Nat), (∀ s ∈ xs, WFstop s = true) →
      ∃ rows, flattenStopsGo tid tnum fid ts seq xs = .ok rows ∧
        rows.length = xs.length ∧
        (∀ r ∈ rows, r.length = STOP_COLS.length) ∧
        (∀ i, i < xs.length →
          ∃ row kvs, rows[i]? = some row ∧ xs[i]? = some (.obj kvs) ∧
            row[3]? = some (.int ((seq + i : Nat) : Int)) ∧
            row[0]? = some (oJ (pyS (pyOr (dGet kvs "Id")
              (.str (synthStopId tid (seq + i)))) (some 100)))) := by
  intro xs
  induction xs with
  | nil =>
    intro seq _
    exact ⟨[], rfl, rfl, by simp, by simp⟩
  | cons s rest ih =>
    intro seq hwf
    have hs := hwf s (List.mem_cons_self _ _)
    have hrest : ∀ x ∈ rest, WFstop x = true :=
      fun x hx => hwf x (List.mem_cons_of_mem _ hx)
    obtain ⟨kvs, rfl⟩ : ∃ kvs, s = JVal.obj kvs := by
      cases s <;> first | exact ⟨_, rfl⟩ | simp [WFstop] at hs
    obtain ⟨row0, hrow0, hlen0, hseq0, hid0⟩ :=
      flattenStop_ok tid tnum fid ts seq kvs hs
    obtain ⟨rows, hrows, hlen, hwidth, hidx⟩ := ih (seq + 1) hrest
    refine ⟨row0 :: rows, ?_, ?_, ?_, ?_⟩
    · unfold flattenStopsGo
      simp only [hrow0, okBind, hrows]
    · simp [hlen]
    · intro r hr
      rcases List.mem_cons.mp hr with hr | hr
      · subst hr; exact hlen0
      · exact hwidth r hr
    · intro i hi
      cases i with
      | zero =>
        refine ⟨row0, kvs, by simp, by simp, ?_, ?_⟩
        · simpa using hseq0
        · simpa using hid0
      | succ j =>
        simp only [List.length_cons] at hi
        obtain ⟨row, kvs2, h1, h2, h3, h4⟩ := hidx j (by omega)
        have hnat : seq + 1 + j = seq + (j + 1) := by omega
        rw [hnat] at h3 h4
        refine ⟨row, kvs2, by simpa using h1, by simpa using h2,
          by simpa using h3, by simpa using h4⟩

/-- The `Stops` value of a well-formed trip is a list of well-formed
stops. -/
theorem WFstops_arr {t : JObj} (h : WFstops t = true) :
    ∃ xs, dGetD t "Stops" (.arr []) = .arr xs ∧ ∀ s ∈ xs, WFstop s = true := by
  unfold WFstops at h
  cases hS : dGetD t "Stops" (.arr []) with
  | arr xs =>
    rw [hS] at h
    exact ⟨xs, rfl, by simpa [List.all_eq_true] using h⟩
  | null => rw [hS] at h; simp at h
  | bool b => rw [hS] at h; simp at h
  | int n => rw [hS] at h; simp at h
  | float q => rw [hS] at h; simp at h
  | str s => rw [hS] at h; simp at h
  | obj kvs => rw [hS] at h; simp at h
  | dt w o => rw [hS] at h; simp at h

/-- `flatten_stops` on a well-formed trip: each source stop yields one
full-width row. -/
theorem flatten_stops_ok (t : JObj) (fid : Option String) (ts : JVal)
    (h : WFstops t = true) :
    ∃ rows, flatten_stops t fid ts = .ok rows ∧
      ∀ r ∈ rows, r.length = STOP_COLS.length := by
  obtain ⟨xs, hS, hwf⟩ := WFstops_arr h
  obtain ⟨rows, hrows, _, hwidth, _⟩ := flattenStopsGo_spec
    (pyS (dGet t "Id") (some 100)) (pyS (dGet t "TripNumber") (some 100))
    fid ts xs 1 hwf
  refine ⟨rows, ?_, hwidth⟩
  unfold flatten_stops
  simp only [hS, pyIterate, okBind, hrows]

/-- **C1, amended.** Each sanitizer/flattener returns a row with the full
fixed column set for its entity *provided* the record is well-formed for it:
nested sub-object fields (`Address`, `Fleet`, `BillingAddress` with string
components, `InvoicingInformation`, stop objects with their
`Address`/`Coordinates`), when present, hold objects, and boolean-flag
fields are `int()`-coercible (`sanitize_trailer` is unconditionally total).
Missing or malformed scalar fields resolve to null, except that boolean
flags default to `0` and the customer `BILLING_ADDRESS` becomes the joined
string `", , , "` — the record with every field absent evaluates exactly to
those rows.  Outside the well-formed fragment the sanitizers *do* raise
(see the counterexample). -/
theorem claim_c1_sanitize_total :
    (∀ d : JObj, WFdriver d = true →
      okCols (sanitize_driver d) = some DRIVER_COLS) ∧
    (∀ t : JObj, WFtruck t = true →
      okCols (sanitize_truck t) = some TRUCK_COLS) ∧
    (∀ t : JObj, okCols (sanitize_trailer t) = some TRAILER_COLS) ∧
    (∀ c : JObj, WFcustomer c = true →
      okCols (sanitize_customer c) = some CUSTOMER_COLS) ∧
    (∀ c : JObj, WFcarrier c = true →
      okCols (sanitize_carrier c) = some CARRIER_COLS) ∧
    (∀ (t : JObj) (fid : Option String) (ts : JVal), WFtrip t = true →
      okLen (flatten_trip t fid ts) = some TRIP_COLS.length) ∧
    (∀ (t : JObj) (fid : Option String) (ts : JVal), WFstops t = true →
      ∃ rows, flatten_stops t fid ts = .ok rows ∧
        ∀ r ∈ rows, r.length = STOP_COLS.length) ∧
    sanitize_driver [] = .ok
      [("ID", .null), ("EMPLOYEE_ID", .null), ("DRIVER_TYPE", .null),
       ("SUBSIDIARY_ID", .null), ("ZIP_CODE", .null), ("FLEET_ID", .null),
       ("FLEET_NAME", .null), ("CREATED_DTTM", .null), ("IS_ACTIVE", .int 0),
       ("HIRED_DTTM", .null), ("FILE_ID", .null)] ∧
    sanitize_truck [] = .ok
      [("ID", .null), ("TRUCK_NUM", .null), ("VIN_NUMBER", .null),
       ("YEAR", .null), ("MAKE", .null), ("MODEL", .null),
       ("LICENSE_STATE", .null), ("TRUCK_TYPE", .null),
       ("SUBSIDIARY_ID", .null), ("FLEET_ID", .null), ("FLEET_NAME", .null),
       ("CREATED_DTTM", .null), ("FILE_ID", .null)] ∧
    sanitize_trailer [] = .ok
      [("ID", .null), ("TRAILER_NUM", .null), ("TRAILER_TYPE", .null),
       ("TRAILER_STATUS", .null), ("CREATED_DTTM", .null),
       ("FILE_ID", .null)] ∧
    sanitize_customer [] = .ok
      [("ID", .null), ("CUSTOMER_NAME", .null), ("COMPANY_NUMBER", .null),
       ("CUSTOMER_TYPE", .null), ("CUSTOMER_STATUS", .null),
       ("BILLING_ADDRESS", .str ", , , "), ("CREATED_DTTM", .null),
       ("INVOICING_NAME", .null), ("INVOICING_ALIAS", .null),
       ("FILE_ID", .null)] ∧
    sanitize_carrier [] = .ok
      [("ID", .null), ("CARRIER_NAME", .null), ("EXTERNAL_NAME", .null),
       ("CITY", .null), ("STATE", .null), ("ZIP", .null), ("MC_NUM", .null),
       ("US_DOT_NUM", .null), ("CARRIER_TYPE", .null),
       ("CARRIER_STATUS", .null), ("CARRIER_SOURCE", .null),
       ("UPDATED_DTTM", .null), ("CREATED_DTTM", .null),
       ("FILE_ID", .null)] ∧
    flatten_trip [] none .null = .ok
      (List.replicate 32 JVal.null ++ [JVal.int 0] ++
        List.replicate 10 JVal.null) ∧
    flatten_stops [] none .null = .ok [] := by
  refine ⟨sanitize_driver_ok, sanitize_truck_ok, sanitize_trailer_ok,
    sanitize_customer_ok, sanitize_carrier_ok, flatten_trip_ok,
    flatten_stops_ok, rfl, rfl, rfl, rfl, rfl, rfl, rfl⟩

/-- **C1, counterexample to the claim as stated.** A record whose `Address`
field is present but `null` (a perfectly possible API value) makes
`sanitize_driver` raise an `AttributeError` (`None.get(...)`) instead of
returning a row, and on a record with no `IsActive` field at all the
`IS_ACTIVE` column is `int(False) = 0`, not null — so neither "never
raises" nor "null in each column whose source field is missing" holds as
stated. -/
theorem claim_c1_cex :
    sanitize_driver [("Address", JVal.null)] = .error .attributeError ∧
    lookupOk (sanitize_driver []) "IS_ACTIVE" = some (JVal.int 0) ∧
    lookupOk (sanitize_driver []) "IS_ACTIVE" ≠ some JVal.null := by
  refine ⟨rfl, rfl, ?_⟩
  intro h
  rw [show lookupOk (sanitize_driver []) "IS_ACTIVE" = some (JVal.int 0)
    from rfl] at h
  injection h with h2
  exact JVal.noConfusion h2

/-- **C1, witness.** The amended totality theorem applied to concrete
well-formed records of each entity kind. -/
theorem claim_c1_witness :
    okCols (sanitize_driver [("Id", JVal.str "D1"),
      ("Address", JVal.obj [("ZipCode", JVal.str "46204")]),
      ("IsActive", JVal.bool true)]) = some DRIVER_COLS ∧
    okCols (sanitize_truck [("Fleet", JVal.obj [("Id", JVal.str "F1")])]) =
      some TRUCK_COLS ∧
    okCols (sanitize_trailer [("Id", JVal.str "TR1")]) = some TRAILER_COLS ∧
    okCols (sanitize_customer [("BillingAddress",
      JVal.obj [("Street", JVal.str "1 Main St")])]) = some CUSTOMER_COLS ∧
    okCols (sanitize_carrier [("Address",
      JVal.obj [("City", JVal.str "Indianapolis")])]) = some CARRIER_COLS ∧
    okLen (flatten_trip [("CarrierPayOnHold", JVal.bool true)] none
      JVal.null) = some TRIP_COLS.length ∧
    ∃ rows, flatten_stops [("Stops", JVal.arr [JVal.obj []])] none
      JVal.null = .ok rows ∧ ∀ r ∈ rows, r.length = STOP_COLS.length := by
  have h := claim_c1_sanitize_total
  exact ⟨h.1 _ (by decide), h.2.1 _ (by decide), h.2.2.1 _,
    h.2.2.2.1 _ (by decide), h.2.2.2.2.1 _ (by decide),
    h.2.2.2.2.2.1 _ _ _ (by decide), h.2.2.2.2.2.2.1 _ _ _ (by decide)⟩

/-- **C4, amended.** For a trip whose `Stops` list holds `k` well-formed
stop objects, `flatten_stops` returns exactly `k` rows in source order with
`STOP_SEQUENCE` values `1, 2, …, k`; each row's ID equals the stop's own
`Id` when that Id is a *truthy* (non-empty) clean string, while a missing,
null, or **empty** Id (Python falsiness, not mere absence) produces the
sanitized synthetic string `f"{trip_id}_{seq}"`. -/
theorem claim_c4_stop_flattening (trip : JObj) (fid : Option String)
    (ts : JVal) (xs : List JVal)
    (hS : dGetD trip "Stops" (.arr []) = .arr xs)
    (hwf : ∀ s ∈ xs, WFstop s = true) :
    ∃ rows, flatten_stops trip fid ts = .ok rows ∧
      rows.length = xs.length ∧
      ∀ i, i < xs.length →
        ∃ row kvs, rows[i]? = some row ∧ xs[i]? = some (.obj kvs) ∧
          row[3]? = some (.int ((i + 1 : Nat) : Int)) ∧
          (∀ s, dGet kvs "Id" = .str s → pyStrip s = s → s ≠ "" →
            s.take 100 = s → row[0]? = some (.str s)) ∧
          (pyTruthy (dGet kvs "Id") = false →
            row[0]? = some (oJ (pyS (.str (synthStopId
              (pyS (dGet trip "Id") (some 100)) (i + 1))) (some 100)))) := by
  obtain ⟨rows, hrows, hlen, _, hidx⟩ := flattenStopsGo_spec
    (pyS (dGet trip "Id") (some 100)) (pyS (dGet trip "TripNumber") (some 100))
    fid ts xs 1 hwf
  refine ⟨rows, ?_, hlen, ?_⟩
  · unfold flatten_stops
    simp only [hS, pyIterate, okBind, hrows]
  · intro i hi
    obtain ⟨row, kvs, h1, h2, h3, h4⟩ := hidx i hi
    have hn : 1 + i = i + 1 := by omega
    rw [hn] at h3 h4
    refine ⟨row, kvs, h1, h2, h3, ?_, ?_⟩
    · intro s hsId hstrip hne htake
      rw [hsId] at h4
      have htr : pyOr (.str s)
          (.str (synthStopId (pyS (dGet trip "Id") (some 100)) (i + 1))) =
          .str s := by
        simp [pyOr, pyTruthy, hne]
      rw [htr] at h4
      have hps : pyS (JVal.str s) (some 100) = some s := by
        simp [pyS, pyStr, hstrip, hne, htake]
      rw [hps] at h4
      exact h4
    · intro hfalsy
      have htr : pyOr (dGet kvs "Id")
          (.str (synthStopId (pyS (dGet trip "Id") (some 100)) (i + 1))) =
          .str (synthStopId (pyS (dGet trip "Id") (some 100)) (i + 1)) := by
        simp [pyOr, hfalsy]
      rw [htr] at h4
      exact h4

set_option maxRecDepth 20000 in
/-- **C4, counterexample to the claim as stated.** A stop whose `Id` is
*present* but the empty string still receives the synthetic ID
(`"T1_1"`), because the code tests Python truthiness
(`stop.get("Id") or f"{trip_id}_{seq}"`), not presence. -/
theorem claim_c4_cex :
    idSeqOf (flatten_stops [("Id", JVal.str "T1"),
      ("Stops", JVal.arr [JVal.obj [("Id", JVal.str "")]])] none JVal.null) =
      [(some (JVal.str "T1_1"), some (JVal.int 1))] ∧
    "T1_1" ≠ "" :=
  ⟨rfl, by decide⟩

set_option maxRecDepth 20000 in
/-- **C4, witness.** The amended theorem at the spec's own example: a trip
`T1` with two stops, the first with `Id = "S1"`, the second without an Id:
two rows, sequences 1 and 2, IDs `"S1"` and `"T1_2"`. -/
theorem claim_c4_witness :
    ∃ rows row0 row1,
      flatten_stops [("Id", JVal.str "T1"),
        ("Stops", JVal.arr [JVal.obj [("Id", JVal.str "S1")], JVal.obj []])]
        none JVal.null = .ok rows ∧
      rows.length = 2 ∧ rows[0]? = some row0 ∧ rows[1]? = some row1 ∧
      row0[0]? = some (JVal.str "S1") ∧ row0[3]? = some (JVal.int 1) ∧
      row1[0]? = some (JVal.str "T1_2") ∧ row1[3]? = some (JVal.int 2) := by
  obtain ⟨rows, h1, h2, h3⟩ := claim_c4_stop_flattening
    [("Id", JVal.str "T1"),
      ("Stops", JVal.arr [JVal.obj [("Id", JVal.str "S1")], JVal.obj []])]
    none JVal.null [JVal.obj [("Id", JVal.str "S1")], JVal.obj []]
    rfl (by decide)
  obtain ⟨row0, kvs0, hr0, hx0, hs0, hid0, _⟩ := h3 0 (by decide)
  obtain ⟨row1, kvs1, hr1, hx1, hs1, _, hsyn1⟩ := h3 1 (by decide)
  have hk0 : kvs0 = [("Id", JVal.str "S1")] := by
    simpa using hx0.symm
  have hk1 : kvs1 = [] := by
    simpa using hx1.symm
  subst hk0
  subst hk1
  refine ⟨rows, row0, row1, h1, h2, hr0, hr1, ?_, ?_, ?_, ?_⟩
  · exact hid0 "S1" rfl rfl (by decide) rfl
  · exact hs0
  · have := hsyn1 rfl
    exact this.trans (by rfl)
  · exact hs1

end Alvys
